import Mathlib

/-!
# Rolling file appender (log4cxx): shallow embedding and verified properties

The development embeds `src/rollingfileappender.cpp` (the rotation orchestrator
`log4cxx::rolling::RollingFileAppender` and its `CountingOutputStream`) and
`src/obsoleterollingfileappender.cpp` (the legacy `log4cxx::RollingFileAppender`, which
wraps the former).

Modelling conventions.

* The C++ object is a record `Appender`; every method is a state transformer in the
  monad `M`, whose state `Sys` holds the appender, the outside world and a trace.
* Everything the appender calls but does not define (policies, actions, the file
  system, the streams, the layout) is a parameter, collected in `Env`.  Each such
  operation reads and updates the outside world `W` and either returns a value or
  throws.  A thrown value is a `std::exception` (the class every `catch` clause of the
  source names).  Collaborators act on the world only: they do not call back into the
  appender.
* State changes made before a throw persist, as in C++: `M` is a state monad whose
  result is an `Except`.
* Every call to a collaborator is appended to `Sys.trace`, so that the order and the
  number of calls can be stated.
* The length estimate is a `size_t`: a natural number below `2 ^ sizeBits`.  An argument
  of type `int` is converted to the 32-bit range by `intArg`.
-/

namespace Log4cxx

/-! ## Values -/

abbrev LogString := String

/-- The thrown object of a C++ `throw`: a `std::exception`, of which the model keeps the message. -/
structure Exn where
  what : String
deriving DecidableEq, Repr

/-- Identity of a logging event (`LoggingEventPtr`). -/
abbrev LoggingEvent := Nat

/-- Identity of an `Action` object (`ActionPtr`). -/
abbrev ActionPtr := Nat

/-- Identity of a raw output stream, as produced by `new FileOutputStream(name, append)`. -/
abbrev StreamId := Nat

/-- A `ByteBuffer` as far as the appender looks at it: `buf.limit()`. -/
structure ByteBuffer where
  limit : Nat
deriving DecidableEq, Repr

/-- A policy object.  `configured` is an object handed in through `setRollingPolicy` or
`setTriggeringPolicy`; the other constructors are the objects the library itself
creates with `new`.  For a fixed window policy an index is `none` as long as no setter
has been called on it. -/
inductive Policy where
  | configured (id : Nat)
  | fixedWindow (minIndex maxIndex : Option Int) (fileNamePattern : LogString)
  | manual
  | sizeBased (maxFileSize : Int)
deriving DecidableEq, Repr

/-- The value object `RolloverDescription`, read through `getActiveFileName`, `getAppend`,
`getSynchronous` and `getAsynchronous`. -/
structure RolloverDescription where
  activeFileName : LogString
  append : Bool
  synchronous : Option ActionPtr
  asynchronous : Option ActionPtr
deriving DecidableEq, Repr

/-- Output streams: a raw stream, or a `CountingOutputStream` wrapped around a stream and
reporting to this appender (`rfa`). -/
inductive OutputStream where
  | raw (id : StreamId)
  | counting (os : OutputStream)
deriving DecidableEq, Repr

/-- Modelled from the spec: the `Writer` that `FileAppender::createWriter` builds on an
output stream (the class is not part of the sources).  It passes what is written to it
on to the stream `out`. -/
structure Writer where
  out : OutputStream
deriving DecidableEq, Repr

/-- The fields of the appender: those inherited from `FileAppender` (`fileName`,
`fileAppend`, `bufferedIo`, `bufferSize`, `writer`, `name`) and those of
`RollingFileAppender`.  A `none` is a NULL pointer.  `bufferedIo` is the field
`bufferedIO` of the source. -/
structure Appender where
  fileName : LogString
  fileAppend : Bool
  bufferedIo : Bool
  bufferSize : Nat
  writer : Option Writer
  name : LogString
  triggeringPolicy : Option Policy
  rollingPolicy : Option Policy
  lastRolloverAsyncAction : Option ActionPtr
  fileLength : Nat
deriving DecidableEq, Repr

/-- One entry of the trace: a call made by the appender, with its arguments.  `rollover`
marks the entry into `RollingFileAppender::rollover` itself. -/
inductive Call where
  | rollover
  | isTriggeringEvent (pol : Policy) (event : LoggingEvent) (file : LogString) (len : Nat)
  | policyActivateOptions (pol : Policy)
  | policyInitialize (pol : Policy) (file : LogString) (append : Bool)
  | policyRollover (pol : Policy) (file : LogString)
  | actionExecute (a : ActionPtr)
  | actionClose (a : ActionPtr)
  | fileLength (file : LogString)
  | newFileOutputStream (file : LogString) (append : Bool)
  | streamWrite (id : StreamId) (size : Nat)
  | streamFlush (id : StreamId)
  | streamClose (id : StreamId)
  | createWriter (os : OutputStream)
  | closeWriter
  | setFile (file : LogString)
  | setFileOpen (file : LogString) (append : Bool) (bufferedIo : Bool) (bufferSize : Nat)
  | setAppend (append : Bool)
  | setWriter (w : Writer)
  | writeHeader
  | layoutHeader
  | layoutFormat (event : LoggingEvent)
  | baseActivateOptions
  | baseSubAppend (event : LoggingEvent)
  | baseClose
  | warn (msg : String)
deriving DecidableEq, Repr

/-- The collaborators of the appender, none of which is defined in the sources.  Each
operation maps the world before the call to a result (a value or a thrown exception)
and the world after it.  `sizeBits` is the width of `size_t`. -/
structure Env (W : Type) where
  sizeBits : Nat
  /-- Whether the object also implements `TriggeringPolicy` (the pointer conversion
  `TriggeringPolicyPtr trig(rollingPolicy)` yields a non-null pointer). -/
  isTriggeringPolicy : Policy → Bool
  isTriggeringEvent : Policy → LoggingEvent → LogString → Nat → W → Except Exn Bool × W
  policyActivateOptions : Policy → W → Except Exn Unit × W
  policyInitialize : Policy → LogString → Bool → W → Except Exn (Option RolloverDescription) × W
  policyRollover : Policy → LogString → W → Except Exn (Option RolloverDescription) × W
  actionExecute : ActionPtr → W → Except Exn Bool × W
  actionClose : ActionPtr → W → Except Exn Unit × W
  fileLength : LogString → W → Except Exn Nat × W
  newFileOutputStream : LogString → Bool → W → Except Exn StreamId × W
  streamWrite : StreamId → ByteBuffer → W → Except Exn Unit × W
  streamFlush : StreamId → W → Except Exn Unit × W
  streamClose : StreamId → W → Except Exn Unit × W
  /-- The buffers the writer hands to its stream for the layout header. -/
  layoutHeader : W → Except Exn (List ByteBuffer) × W
  /-- The buffers the writer hands to its stream for a formatted event. -/
  layoutFormat : LoggingEvent → W → Except Exn (List ByteBuffer) × W

/-- The whole state: the appender object, the outside world, and the calls made so far. -/
structure Sys (W : Type) where
  app : Appender
  world : W
  trace : List Call
deriving DecidableEq

deriving instance DecidableEq for Except

/-! ## The monad of methods -/

/-- A method body: from the state before to a result (value or exception) and the state after. -/
def M (W : Type) (α : Type) : Type := Sys W → Except Exn α × Sys W

/-- Run a method body from a state. -/
def M.run {W α : Type} (m : M W α) (s : Sys W) : Except Exn α × Sys W := m s

/-- Sequencing: an exception of the first part skips the second and keeps the state reached. -/
def M.bind {W α β : Type} (m : M W α) (f : α → M W β) : M W β := fun s =>
  match m s with
  | (.ok a, s1) => f a s1
  | (.error e, s1) => (.error e, s1)

/-- The `try ... catch (std::exception&)` block: the handler runs from the state reached at the throw. -/
def M.tryCatch {W α : Type} (m : M W α) (h : Exn → M W α) : M W α := fun s =>
  match m s with
  | (.ok a, s1) => (.ok a, s1)
  | (.error e, s1) => h e s1

instance {W : Type} : Monad (M W) where
  pure a := fun s => (.ok a, s)
  bind := M.bind

instance {W : Type} : MonadExceptOf Exn (M W) where
  throw e := fun s => (.error e, s)
  tryCatch := M.tryCatch

section Primitives

variable {W : Type}

/-- Read the appender object. -/
def getApp : M W Appender := fun s => (.ok s.app, s)

/-- Update the appender object. -/
def modifyApp (f : Appender → Appender) : M W Unit := fun s => (.ok (), { s with app := f s.app })

/-- Record a call in the trace. -/
def call (c : Call) : M W Unit := fun s => (.ok (), { s with trace := s.trace ++ [c] })

/-- Call a collaborator: record the call, then let it act on the world. -/
def ext {α : Type} (c : Call) (f : W → Except Exn α × W) : M W α := fun s =>
  ((f s.world).1, { s with world := (f s.world).2, trace := s.trace ++ [c] })

end Primitives

section Methods

variable {W : Type}

/-! ## Collaborator calls -/

/-- The call `LogLog::warn(msg)`. -/
def warn (msg : String) : M W Unit := call (Call.warn msg)

/-- The call `policy->isTriggeringEvent(this, event, file, fileLength)`. -/
def isTriggeringEvent (env : Env W) (pol : Policy) (event : LoggingEvent) (file : LogString)
    (len : Nat) : M W Bool :=
  ext (Call.isTriggeringEvent pol event file len) (env.isTriggeringEvent pol event file len)

/-- The call `policy->activateOptions(p)`. -/
def policyActivateOptions (env : Env W) (pol : Policy) : M W Unit :=
  ext (Call.policyActivateOptions pol) (env.policyActivateOptions pol)

/-- The call `rollingPolicy->initialize(file, append, p)`; the result may be NULL. -/
def policyInitialize (env : Env W) (pol : Policy) (file : LogString) (append : Bool) :
    M W (Option RolloverDescription) :=
  ext (Call.policyInitialize pol file append) (env.policyInitialize pol file append)

/-- The call `rollingPolicy->rollover(file, p)`; the result may be NULL. -/
def policyRollover (env : Env W) (pol : Policy) (file : LogString) :
    M W (Option RolloverDescription) :=
  ext (Call.policyRollover pol file) (env.policyRollover pol file)

/-- The call `action->execute(p)`. -/
def actionExecute (env : Env W) (a : ActionPtr) : M W Bool :=
  ext (Call.actionExecute a) (env.actionExecute a)

/-- The call `action->close()`. -/
def actionClose (env : Env W) (a : ActionPtr) : M W Unit :=
  ext (Call.actionClose a) (env.actionClose a)

/-- The call `File(file).length(p)`. -/
def fileLengthOf (env : Env W) (file : LogString) : M W Nat :=
  ext (Call.fileLength file) (env.fileLength file)

/-- The constructor call `new FileOutputStream(file, append)`. -/
def newFileOutputStream (env : Env W) (file : LogString) (append : Bool) : M W OutputStream := do
  let id ← ext (Call.newFileOutputStream file append) (env.newFileOutputStream file append)
  pure (OutputStream.raw id)

/-! ## `RollingFileAppender`: length estimate and `CountingOutputStream`
(`rollingfileappender.cpp`, lines 307-384) -/

/-- `RollingFileAppender::getFileLength`. -/
def getFileLength : M W Nat := do
  pure (← getApp).fileLength

/-- `RollingFileAppender::incrementFileLength`: `fileLength += increment` on a `size_t`. -/
def incrementFileLength (env : Env W) (increment : Nat) : M W Unit :=
  modifyApp fun a => { a with fileLength := (a.fileLength + increment) % 2 ^ env.sizeBits }

/-- `OutputStream::write(buf, p)`.  On a `CountingOutputStream` (lines 347-350):
`os->write(buf, p); rfa->incrementFileLength(buf.limit());`. -/
def OutputStream.write (env : Env W) : OutputStream → ByteBuffer → M W Unit
  | .raw id, buf => ext (Call.streamWrite id buf.limit) (env.streamWrite id buf)
  | .counting os, buf => do
    OutputStream.write env os buf
    incrementFileLength env buf.limit

/-- `OutputStream::flush(p)`.  On a `CountingOutputStream` (lines 340-342): `os->flush(p);`. -/
def OutputStream.flush (env : Env W) : OutputStream → M W Unit
  | .raw id => ext (Call.streamFlush id) (env.streamFlush id)
  | .counting os => OutputStream.flush env os

/-- `OutputStream::close(p)`.  On a `CountingOutputStream` (lines 333-335): `os->close(p);`. -/
def OutputStream.close (env : Env W) : OutputStream → M W Unit
  | .raw id => ext (Call.streamClose id) (env.streamClose id)
  | .counting os => OutputStream.close env os

/-- Write a sequence of buffers to a stream, one `write` call each, in order. -/
def OutputStream.writeAll (env : Env W) (os : OutputStream) : List ByteBuffer → M W Unit
  | [] => pure ()
  | buf :: rest => do
    OutputStream.write env os buf
    OutputStream.writeAll env os rest

/-! ## The inherited `FileAppender` (not part of the sources) -/

/-- Modelled from the spec: `FileAppender::getFile` (§6, `currentFileName()`), which is
not in the sources: the active file name. -/
def getFile : M W LogString := do
  pure (← getApp).fileName

/-- Modelled from the spec: `FileAppender::getAppend` (§6), which is not in the sources. -/
def getAppend : M W Bool := do
  pure (← getApp).fileAppend

/-- Modelled from the spec: the one-argument `FileAppender::setFile(file)`, which is not
in the sources: it switches the active file name and opens nothing (§4.1, step 5). -/
def setFile (file : LogString) : M W Unit := do
  call (Call.setFile file)
  modifyApp fun a => { a with fileName := file }

/-- Modelled from the spec: `FileAppender::setAppend`, which is not in the sources. -/
def setAppend (append : Bool) : M W Unit := do
  call (Call.setAppend append)
  modifyApp fun a => { a with fileAppend := append }

/-- Modelled from the spec: `setWriter(w)` (§6), which is not in the sources: it installs
the write handle. -/
def setWriter (w : Writer) : M W Unit := do
  call (Call.setWriter w)
  modifyApp fun a => { a with writer := some w }

/-- Modelled from the spec: `closeWriter()` (§6), which is not in the sources: it closes
the current write handle, after which none is installed. -/
def closeWriter (env : Env W) : M W Unit := do
  call Call.closeWriter
  match (← getApp).writer with
  | none => pure ()
  | some w => do
    OutputStream.close env w.out
    modifyApp fun a => { a with writer := none }

/-- `RollingFileAppender::createWriter` (lines 365-368): wrap the stream in a
`CountingOutputStream` and hand it to `FileAppender::createWriter`, which is not in the
sources and is modelled from the spec (§6) as building the writer on that stream. -/
def createWriter (os : OutputStream) : M W Writer := do
  call (Call.createWriter os)
  let cos := OutputStream.counting os
  pure (Writer.mk cos)

/-- Modelled from the spec: the hook `writeHeader(p)` (§6), which is not in the sources:
the header the output format requires is written to the installed writer. -/
def writeHeader (env : Env W) : M W Unit := do
  call Call.writeHeader
  match (← getApp).writer with
  | none => pure ()
  | some w => do
    let bufs ← ext Call.layoutHeader env.layoutHeader
    OutputStream.writeAll env w.out bufs

/-- Modelled from the spec: `FileAppender::setFile(file, append, bufferedIO, bufferSize, p)`
(§6), which is not in the sources: it opens the file, builds the writer with
`createWriter`, installs it, records the four values and runs the header hook. -/
def setFileOpen (env : Env W) (file : LogString) (append : Bool) (bufferedIo : Bool)
    (bufferSize : Nat) : M W Unit := do
  call (Call.setFileOpen file append bufferedIo bufferSize)
  let os ← newFileOutputStream env file append
  let w ← createWriter os
  modifyApp fun a =>
    { a with writer := some w, fileName := file, fileAppend := append,
             bufferedIo := bufferedIo, bufferSize := bufferSize }
  writeHeader env

/-- Modelled from the spec: `FileAppender::activateOptions(p)`, which is not in the
sources: the base appender opens its stream on the active file with the configured
options (§4.1, `activate`). -/
def baseActivateOptions (env : Env W) : M W Unit := do
  call Call.baseActivateOptions
  let a ← getApp
  setFileOpen env a.fileName a.fileAppend a.bufferedIo a.bufferSize

/-- Modelled from the spec: `FileAppender::subAppend(event, p)`, which is not in the
sources: the single-file write path, which formats the event and writes it to the
installed writer (§4.1, `append`). -/
def baseSubAppend (env : Env W) (event : LoggingEvent) : M W Unit := do
  call (Call.baseSubAppend event)
  match (← getApp).writer with
  | none => pure ()
  | some w => do
    let bufs ← ext (Call.layoutFormat event) (env.layoutFormat event)
    OutputStream.writeAll env w.out bufs

/-- Modelled from the spec: `FileAppender::close()`, which is not in the sources: it
closes the active file handle (§4.1, `shutdown`). -/
def baseClose (env : Env W) : M W Unit := do
  call Call.baseClose
  closeWriter env

/-! ## `RollingFileAppender` (`rollingfileappender.cpp`, lines 43-299) -/

/-- The wait on the previous asynchronous action in `rollover` (lines 134-144) and in
`close` (lines 293-295): `if (lastRolloverAsyncAction != NULL) lastRolloverAsyncAction->close();`. -/
def closeLastAsyncAction (env : Env W) : M W Unit := do
  match (← getApp).lastRolloverAsyncAction with
  | none => pure ()
  | some a => actionClose env a

/-- The synchronous phase of `rollover` (lines 153-163 and 192-202): `success` is true
without a synchronous action, else it is what `execute` returns, and false when
`execute` throws (the exception is caught and a warning logged). -/
def runSynchronous (env : Env W) (rollover : RolloverDescription) (warning : String) : M W Bool :=
  match rollover.synchronous with
  | none => pure true
  | some a =>
    tryCatch (actionExecute env a) fun _ => do
      warn warning
      pure false

/-- The bookkeeping of `rollover` after a successful synchronous phase (lines 166-175 and
205-214): refresh the length estimate, and keep the asynchronous action if there is one. -/
def refreshAfterRollover (env : Env W) (rollover : RolloverDescription) : M W Unit := do
  if rollover.append then
    let len ← fileLengthOf env rollover.activeFileName
    modifyApp fun a => { a with fileLength := len }
  else
    modifyApp fun a => { a with fileLength := 0 }
  match rollover.asynchronous with
  | none => pure ()
  | some a => modifyApp fun app => { app with lastRolloverAsyncAction := some a }

/-- The branch of `rollover` for a plan that keeps the file name (lines 151-183). -/
def rolloverSameFile (env : Env W) (rollover : RolloverDescription) : M W Unit := do
  closeWriter env
  let success ← runSynchronous env rollover "Exception on rollover"
  if success then
    refreshAfterRollover env rollover
    let a ← getApp
    setFileOpen env rollover.activeFileName rollover.append a.bufferedIo a.bufferSize
  else
    let a ← getApp
    setFileOpen env rollover.activeFileName true a.bufferedIo a.bufferSize

/-- The branch of `rollover` for a plan with another file name (lines 185-217). -/
def rolloverNewFile (env : Env W) (rollover : RolloverDescription) : M W Unit := do
  let os ← newFileOutputStream env rollover.activeFileName rollover.append
  let newWriter ← createWriter os
  closeWriter env
  setFile rollover.activeFileName
  setWriter newWriter
  let success ← runSynchronous env rollover "Exception during rollover"
  if success then
    refreshAfterRollover env rollover
  writeHeader env

/-- The guarded part of `rollover` (lines 147-221): ask the policy for a plan and carry
it out; the value is whether there was a plan. -/
def rolloverGuarded (env : Env W) (rollingPolicy : Policy) : M W Bool := do
  let rollover ← policyRollover env rollingPolicy (← getFile)
  match rollover with
  | none => pure false
  | some rollover => do
    if rollover.activeFileName = (← getFile) then
      rolloverSameFile env rollover
    else
      rolloverNewFile env rollover
    pure true

/-- `RollingFileAppender::rollover` (lines 123-230). -/
def rollover (env : Env W) : M W Bool := do
  call Call.rollover
  match (← getApp).rollingPolicy with
  | none => pure false
  | some rollingPolicy => do
    closeLastAsyncAction env
    tryCatch (rolloverGuarded env rollingPolicy) fun _ => do
      warn "Exception during rollover"
      pure false

/-- `RollingFileAppender::subAppend` (lines 235-253).  Calling through the NULL
`triggeringPolicy` pointer is modelled as a thrown `NullPointerException`. -/
def subAppend (env : Env W) (event : LoggingEvent) : M W Unit := do
  match (← getApp).triggeringPolicy with
  | none => throw (Exn.mk "NullPointerException")
  | some triggeringPolicy => do
    if ← isTriggeringEvent env triggeringPolicy event (← getFile) (← getFileLength) then
      tryCatch (do let _ ← rollover env; pure ()) fun _ =>
        warn "Exception during rollover attempt."
    baseSubAppend env event

/-- The first part of `activateOptions` (lines 44-48): install a fixed window policy
if there is no rolling policy; the value is the rolling policy then in place. -/
def defaultRollingPolicy : M W Policy := do
  match (← getApp).rollingPolicy with
  | some rollingPolicy => pure rollingPolicy
  | none => do
    let fwrp := Policy.fixedWindow none none ((← getFile) ++ ".%i")
    modifyApp fun a => { a with rollingPolicy := some fwrp }
    pure fwrp

/-- The second part of `activateOptions` (lines 53-62): without a triggering policy, take
the rolling policy if it is one, else a `ManualTriggeringPolicy`; the value is the
triggering policy then in place. -/
def defaultTriggeringPolicy (env : Env W) (rollingPolicy : Policy) : M W Policy := do
  match (← getApp).triggeringPolicy with
  | some triggeringPolicy => pure triggeringPolicy
  | none => do
    let trig := if env.isTriggeringPolicy rollingPolicy then rollingPolicy else Policy.manual
    modifyApp fun a => { a with triggeringPolicy := some trig }
    pure trig

/-- The guarded part of `activateOptions` (lines 70-98). -/
def activateGuarded (env : Env W) (rollingPolicy : Policy) : M W Unit := do
  let rollover ← policyInitialize env rollingPolicy (← getFile) (← getAppend)
  match rollover with
  | none => pure ()
  | some rollover => do
    match rollover.synchronous with
    | none => pure ()
    | some syncAction => do
      let _ ← actionExecute env syncAction
      pure ()
    setFile rollover.activeFileName
    setAppend rollover.append
    modifyApp fun a => { a with lastRolloverAsyncAction := rollover.asynchronous }
  if ← getAppend then
    let len ← fileLengthOf env (← getFile)
    modifyApp fun a => { a with fileLength := len }
  else
    modifyApp fun a => { a with fileLength := 0 }
  baseActivateOptions env

/-- `RollingFileAppender::activateOptions` (lines 43-106). -/
def activateOptions (env : Env W) : M W Unit := do
  let rollingPolicy ← defaultRollingPolicy
  let triggeringPolicy ← defaultTriggeringPolicy env rollingPolicy
  policyActivateOptions env triggeringPolicy
  policyActivateOptions env rollingPolicy
  tryCatch (activateGuarded env rollingPolicy) fun _ => do
    warn ("Exception will initializing RollingFileAppender named " ++ (← getApp).name)

/-- `RollingFileAppender::close` (lines 290-299). -/
def close (env : Env W) : M W Unit := do
  closeLastAsyncAction env
  baseClose env

/-- `RollingFileAppender::setRollingPolicy` (`rollingfileappender.cpp`, lines 275-277). -/
def setRollingPolicy (policy : Option Policy) : M W Unit :=
  modifyApp fun a => { a with rollingPolicy := policy }

/-- `RollingFileAppender::setTriggeringPolicy` (`rollingfileappender.cpp`, lines 283-285). -/
def setTriggeringPolicy (policy : Option Policy) : M W Unit :=
  modifyApp fun a => { a with triggeringPolicy := policy }

/-! ## The legacy `log4cxx::RollingFileAppender` (`obsoleterollingfileappender.cpp`) -/

/-- The fields of the legacy appender besides `rfa`: `maxFileSize` (a `long`) and
`maxBackupIndex` (an `int`).  The wrapped appender `rfa` is the appender of the state. -/
structure Obsolete.RollingFileAppender where
  maxFileSize : Int
  maxBackupIndex : Int
deriving DecidableEq, Repr

/-- What `setOption` calls and the sources do not define: `StringHelper::equalsIgnoreCase`
(a name, then the same name in upper and in lower case), `OptionConverter::toFileSize`
(a value and a default), `StringHelper::toInt`, and the `setOption` of the wrapped
appender. -/
structure Obsolete.Helpers (W : Type) where
  equalsIgnoreCase : LogString → LogString → LogString → Bool
  toFileSize : LogString → Int → Int
  toInt : LogString → Int
  rfaSetOption : LogString → LogString → M W Unit

/-- The constructor `RollingFileAppender()` (lines 41-44): `maxFileSize(10*1024*1024)`,
`maxBackupIndex(1)`. -/
def Obsolete.newRollingFileAppender : Obsolete.RollingFileAppender :=
  { maxFileSize := 10 * 1024 * 1024, maxBackupIndex := 1 }

/-- `RollingFileAppender::getMaxBackupIndex` (lines 98-100). -/
def Obsolete.getMaxBackupIndex (self : Obsolete.RollingFileAppender) : Int :=
  self.maxBackupIndex

/-- `RollingFileAppender::getMaximumFileSize` (lines 102-104). -/
def Obsolete.getMaximumFileSize (self : Obsolete.RollingFileAppender) : Int :=
  self.maxFileSize

/-- The value of a 32-bit C++ `int` argument: the integer congruent to `x` modulo `2 ^ 32`
in the range `-2 ^ 31 ≤ · < 2 ^ 31` (an `int` in range is itself). -/
def intArg (x : Int) : Int :=
  (x + 2 ^ 31) % 2 ^ 32 - 2 ^ 31

/-- `RollingFileAppender::setMaxBackupIndex` (lines 106-108); the parameter is an `int`. -/
def Obsolete.setMaxBackupIndex (self : Obsolete.RollingFileAppender) (maxBackups : Int) :
    Obsolete.RollingFileAppender :=
  { self with maxBackupIndex := intArg maxBackups }

/-- `RollingFileAppender::setMaximumFileSize` (lines 110-112); the parameter is an `int`,
stored in the `long` field. -/
def Obsolete.setMaximumFileSize (self : Obsolete.RollingFileAppender) (maxFileSize : Int) :
    Obsolete.RollingFileAppender :=
  { self with maxFileSize := intArg maxFileSize }

/-- `RollingFileAppender::setMaxFileSize` (lines 114-116):
`maxFileSize = OptionConverter::toFileSize(value, maxFileSize + 1)`. -/
def Obsolete.setMaxFileSize (h : Obsolete.Helpers W) (self : Obsolete.RollingFileAppender)
    (value : LogString) : Obsolete.RollingFileAppender :=
  { self with maxFileSize := h.toFileSize value (self.maxFileSize + 1) }

/-- The legacy `RollingFileAppender::setOption` (lines 74-95); the value is the legacy
appender after the call. -/
def Obsolete.setOption (h : Obsolete.Helpers W) (self : Obsolete.RollingFileAppender)
    (option value : LogString) : M W Obsolete.RollingFileAppender :=
  if h.equalsIgnoreCase option "MAXFILESIZE" "maxfilesize"
      || h.equalsIgnoreCase option "MAXIMUMFILESIZE" "maximumfilesize" then
    pure (Obsolete.setMaxFileSize h self value)
  else if h.equalsIgnoreCase option "MAXBACKUPINDEX" "maxbackupindex"
      || h.equalsIgnoreCase option "MAXIMUMBACKUPINDEX" "maximumbackupindex" then
    pure { self with maxBackupIndex := h.toInt value }
  else do
    h.rfaSetOption option value
    pure self

/-- The legacy `RollingFileAppender::activateOptions` (lines 118-134). -/
def Obsolete.activateOptions (env : Env W) (self : Obsolete.RollingFileAppender) : M W Unit := do
  let trigger := Policy.sizeBased self.maxFileSize
  policyActivateOptions env trigger
  setTriggeringPolicy (some trigger)
  let rolling := Policy.fixedWindow (some 1) (some self.maxBackupIndex) ((← getFile) ++ ".%i")
  policyActivateOptions env rolling
  setRollingPolicy (some rolling)
  Log4cxx.activateOptions env

/-- The legacy `RollingFileAppender::rollOver` (lines 199-202). -/
def Obsolete.rollOver (env : Env W) : M W Unit := do
  let _ ← rollover env
  pure ()

end Methods

/-! ## Vocabulary for the statements -/

section Vocabulary

variable {W α : Type}

/-- How deep in the call structure a call sits: 0 for calls on a stream or on the
layout, 1 for the steps of opening a file and writing the header, 3 for the entry into
`rollover` and into the inherited write path, 2 for every other call. -/
def Call.level : Call → Nat
  | .streamWrite _ _ => 0
  | .streamFlush _ => 0
  | .streamClose _ => 0
  | .layoutHeader => 0
  | .layoutFormat _ => 0
  | .newFileOutputStream _ _ => 1
  | .createWriter _ => 1
  | .writeHeader => 1
  | .rollover => 3
  | .baseSubAppend _ => 3
  | _ => 2

/-- A method body only appends to the trace, and every call it appends satisfies `P`. -/
def Emits (P : Call → Prop) (m : M W α) : Prop :=
  ∀ s : Sys W, ∃ seg : List Call, (m.run s).2.trace = s.trace ++ seg ∧ ∀ c ∈ seg, P c

/-- The state at the entry of `rollover`: the entry has been recorded. -/
def entered (s : Sys W) : Sys W := { s with trace := s.trace ++ [Call.rollover] }

/-- The calls with which `rollover` and `close` wait for the outstanding asynchronous action. -/
def waitCalls (a : Appender) : List Call :=
  match a.lastRolloverAsyncAction with
  | none => []
  | some act => [Call.actionClose act]

/-- Whether the synchronous phase of a plan succeeds when it starts in world `w`: there
is no synchronous action, or its `execute` returns true (it neither returns false nor
throws). -/
def syncSucceeds (env : Env W) (plan : RolloverDescription) (w : W) : Bool :=
  match plan.synchronous with
  | none => true
  | some a =>
    match (env.actionExecute a w).1 with
    | .ok b => b
    | .error _ => false

/-- The calls of the synchronous phase started in world `w`: none without a synchronous
action, else its `execute`, followed by the warning if `execute` throws. -/
def syncCalls (env : Env W) (plan : RolloverDescription) (warning : String) (w : W) : List Call :=
  match plan.synchronous with
  | none => []
  | some a =>
    match (env.actionExecute a w).1 with
    | .ok _ => [Call.actionExecute a]
    | .error _ => [Call.actionExecute a, Call.warn warning]

/-- The world after the synchronous phase started in world `w`. -/
def syncWorld (env : Env W) (plan : RolloverDescription) (w : W) : W :=
  match plan.synchronous with
  | none => w
  | some a => (env.actionExecute a w).2

/-- The state after the synchronous phase started in state `s`. -/
def afterSync (env : Env W) (plan : RolloverDescription) (warning : String) (s : Sys W) : Sys W :=
  { s with world := syncWorld env plan s.world,
           trace := s.trace ++ syncCalls env plan warning s.world }

/-- The state in which the policy has just returned, leaving the world `w`. -/
def afterPolicy (s : Sys W) (pol : Policy) (w : W) : Sys W :=
  { s with world := w, trace := s.trace ++ [Call.policyRollover pol s.app.fileName] }

/-- The call that reads the on-disk length, made only after a successful synchronous
phase of a plan that appends. -/
def lengthCalls (plan : RolloverDescription) (success : Bool) : List Call :=
  if success && plan.append then [Call.fileLength plan.activeFileName] else []

/-- The raw stream at the bottom of a chain of `CountingOutputStream` wrappers: the stream
that a call forwarded by every wrapper arrives at. -/
def OutputStream.rawId : OutputStream → StreamId
  | .raw id => id
  | .counting os => os.rawId

/-- The sum of the sizes (`limit()`) of a sequence of buffers. -/
def totalSize (bufs : List ByteBuffer) : Nat := (bufs.map ByteBuffer.limit).sum

/-- The state in which the new output stream `id` has been opened (leaving the world `w`)
and wrapped in a writer, before the old writer is closed. -/
def opened (s : Sys W) (plan : RolloverDescription) (id : StreamId) (w : W) : Sys W :=
  { s with world := w,
           trace := s.trace ++ [Call.newFileOutputStream plan.activeFileName plan.append,
                                Call.createWriter (OutputStream.raw id)] }

/-- The state in which the active file name has been switched to the plan's and the
writer `w` installed. -/
def installed (s : Sys W) (plan : RolloverDescription) (w : Writer) : Sys W :=
  { s with app := { s.app with fileName := plan.activeFileName, writer := some w },
           trace := s.trace ++ [Call.setFile plan.activeFileName, Call.setWriter w] }

/-- A client calling `subAppend` for each event of a sequence, in order; an exception
leaving one call does not keep the client from making the next. -/
def runAppends (env : Env W) : List LoggingEvent → Sys W → Sys W
  | [], s => s
  | event :: rest, s => runAppends env rest ((subAppend env event).run s).2

/-- The number of bytes a sequence of events comes to, when event `e` is formatted into
the buffers `bytes e`. -/
def cumSize (bytes : LoggingEvent → List ByteBuffer) (events : List LoggingEvent) : Nat :=
  (events.map fun e => totalSize (bytes e)).sum

/-- Every append of the sequence starts with fewer than `max` bytes written, `c` being
the number of bytes written before the first. -/
def startsBelow (max : Nat) (bytes : LoggingEvent → List ByteBuffer) :
    Nat → List LoggingEvent → Prop
  | _, [] => True
  | c, event :: rest => c < max ∧ startsBelow max bytes (c + totalSize (bytes event)) rest

/-- The rolling policy in place after the first part of `activateOptions`: the configured
one, else a new fixed window policy with the pattern `<file>.%i`. -/
def rollingPolicyOf (a : Appender) : Policy :=
  match a.rollingPolicy with
  | some p => p
  | none => Policy.fixedWindow none none (a.fileName ++ ".%i")

/-- The triggering policy in place after the second part of `activateOptions`: the
configured one, else the rolling policy if it is a triggering policy too, else a manual
one. -/
def triggeringPolicyOf (env : Env W) (a : Appender) : Policy :=
  match a.triggeringPolicy with
  | some p => p
  | none => if env.isTriggeringPolicy (rollingPolicyOf a) then rollingPolicyOf a else Policy.manual

/-- The state after the two policies have been put in place. -/
def defaulted (env : Env W) (s : Sys W) : Sys W :=
  { s with app := { s.app with
      rollingPolicy := some (rollingPolicyOf s.app)
      triggeringPolicy := some (triggeringPolicyOf env s.app) } }

/-- The state in which both policies have been activated, leaving the world `w`. -/
def activated (env : Env W) (s : Sys W) (w : W) : Sys W :=
  { defaulted env s with
    world := w
    trace := s.trace ++ [Call.policyActivateOptions (triggeringPolicyOf env s.app),
                         Call.policyActivateOptions (rollingPolicyOf s.app)] }

/-- The three calls a client makes on the appender in the life cycle of the outstanding
asynchronous action. -/
inductive Op where
  | activateOptions
  | rollover
  | close
deriving DecidableEq, Repr

/-- The state after one call; an exception leaving the call is the client's business. -/
def runOp (env : Env W) : Op → Sys W → Sys W
  | .activateOptions, s => ((activateOptions env).run s).2
  | .rollover, s => ((rollover env).run s).2
  | .close, s => ((close env).run s).2

/-- The state after a sequence of calls. -/
def runOps (env : Env W) : List Op → Sys W → Sys W
  | [], s => s
  | op :: rest, s => runOps env rest (runOp env op s)

/-- The two policy pointers of the appender. -/
def policiesOf (a : Appender) : Option Policy × Option Policy :=
  (a.triggeringPolicy, a.rollingPolicy)

/-- A method body leaves both policy pointers as they are, whatever its outcome. -/
def KeepsPolicies (m : M W α) : Prop :=
  ∀ s : Sys W, policiesOf (m.run s).2.app = policiesOf s.app

/-- A name with every upper case letter replaced by the lower case letter. -/
def lowerCase (name : LogString) : List Char := name.data.map Char.toLower

/-- Two names are the same but for the case of their letters. -/
def sameIgnoringCase (a b : LogString) : Prop := lowerCase a = lowerCase b

instance (a b : LogString) : Decidable (sameIgnoringCase a b) :=
  inferInstanceAs (Decidable (lowerCase a = lowerCase b))

/-- What is assumed of `StringHelper::equalsIgnoreCase`: when `upper` and `lower` are one
name in two cases, it accepts only names that are that name but for the case. -/
def Obsolete.Helpers.Sound (h : Obsolete.Helpers W) : Prop :=
  ∀ name upper lower, lowerCase upper = lowerCase lower →
    h.equalsIgnoreCase name upper lower = true → sameIgnoringCase name lower

/-- The size threshold trigger the legacy appender creates. -/
def Obsolete.triggerOf (self : Obsolete.RollingFileAppender) : Policy :=
  Policy.sizeBased self.maxFileSize

/-- The fixed window policy the legacy appender creates for the file name `file`. -/
def Obsolete.rollingOf (self : Obsolete.RollingFileAppender) (file : LogString) : Policy :=
  Policy.fixedWindow (some 1) (some self.maxBackupIndex) (file ++ ".%i")

/-- The state in which the legacy appender has activated and installed its two policies,
leaving the world `w`, and is about to activate the wrapped appender. -/
def Obsolete.wired (self : Obsolete.RollingFileAppender) (s : Sys W) (w : W) : Sys W :=
  { app := { s.app with
      triggeringPolicy := some (Obsolete.triggerOf self)
      rollingPolicy := some (Obsolete.rollingOf self s.app.fileName) }
    world := w
    trace := s.trace ++ [Call.policyActivateOptions (Obsolete.triggerOf self),
      Call.policyActivateOptions (Obsolete.rollingOf self s.app.fileName)] }

/-- The file name in force once the initial plan, if there is one, has been applied
(line 80 of `activateOptions`). -/
def startFile (a : Appender) : Option RolloverDescription → LogString
  | none => a.fileName
  | some plan => plan.activeFileName

/-- The append flag in force once the initial plan, if there is one, has been applied
(line 81). -/
def startAppend (a : Appender) : Option RolloverDescription → Bool
  | none => a.fileAppend
  | some plan => plan.append

/-- The outstanding asynchronous action once the initial plan, if there is one, has been
applied (line 82). -/
def startAction (a : Appender) : Option RolloverDescription → Option ActionPtr
  | none => a.lastRolloverAsyncAction
  | some plan => plan.asynchronous

/-- Whether the synchronous action of the initial plan, started in world `w`, returns
(with true or false) rather than throws; true when there is no plan or no such action. -/
def startReturns (env : Env W) : Option RolloverDescription → W → Bool
  | none, _ => true
  | some plan, w =>
    match plan.synchronous with
    | none => true
    | some a =>
      match (env.actionExecute a w).1 with
      | .ok _ => true
      | .error _ => false

/-- The world after the synchronous action of the initial plan, if there is one, has been
executed from the world `w`. -/
def startWorld (env : Env W) : Option RolloverDescription → W → W
  | none, w => w
  | some plan, w => syncWorld env plan w

/-- The calls with which `activateOptions` applies the initial plan, if there is one
(lines 73-82). -/
def startCalls : Option RolloverDescription → List Call
  | none => []
  | some plan =>
    (match plan.synchronous with
      | none => []
      | some a => [Call.actionExecute a]) ++
    [Call.setFile plan.activeFileName, Call.setAppend plan.append]

/-- The state in which `initialize` has returned `r`, leaving the world `w3`, and the
plan, if there is one, has been applied: the state in which `activateOptions` reaches
line 90. -/
def planned (env : Env W) (s : Sys W) (w2 : W) (r : Option RolloverDescription) (w3 : W) :
    Sys W :=
  { app := { (defaulted env s).app with
      fileName := startFile s.app r
      fileAppend := startAppend s.app r
      lastRolloverAsyncAction := startAction s.app r }
    world := startWorld env r w3
    trace := (activated env s w2).trace ++
      Call.policyInitialize (rollingPolicyOf s.app) s.app.fileName s.app.fileAppend ::
        startCalls r }

/-- Lines 90-96 of `activateOptions`: the length estimate is read from the active file
when the appender appends, and is 0 otherwise. -/
def initialLength (env : Env W) : M W Unit := do
  if ← getAppend then
    let len ← fileLengthOf env (← getFile)
    modifyApp fun a => { a with fileLength := len }
  else
    modifyApp fun a => { a with fileLength := 0 }

end Vocabulary

/-! ## Concrete collaborators and states, used to instantiate the theorems -/

section Instances

/-- Collaborators that always succeed: policies that never fire and have no plan,
actions that report success, an empty file system, a layout without header that
formats every event into one buffer of ten bytes. -/
def quietEnv : Env Unit where
  sizeBits := 64
  isTriggeringPolicy := fun _ => false
  isTriggeringEvent := fun _ _ _ _ w => (.ok false, w)
  policyActivateOptions := fun _ w => (.ok (), w)
  policyInitialize := fun _ _ _ w => (.ok none, w)
  policyRollover := fun _ _ w => (.ok none, w)
  actionExecute := fun _ w => (.ok true, w)
  actionClose := fun _ w => (.ok (), w)
  fileLength := fun _ w => (.ok 0, w)
  newFileOutputStream := fun _ _ w => (.ok 1, w)
  streamWrite := fun _ _ w => (.ok (), w)
  streamFlush := fun _ w => (.ok (), w)
  streamClose := fun _ w => (.ok (), w)
  layoutHeader := fun w => (.ok [], w)
  layoutFormat := fun _ w => (.ok [ByteBuffer.mk 10], w)

/-- An activated appender on `app.log` with both policies configured, an open counting
writer, an empty file and no outstanding asynchronous action. -/
def readyApp : Appender where
  fileName := "app.log"
  fileAppend := true
  bufferedIo := false
  bufferSize := 8192
  writer := some (Writer.mk (OutputStream.counting (OutputStream.raw 0)))
  name := "R"
  triggeringPolicy := some (Policy.configured 0)
  rollingPolicy := some (Policy.configured 1)
  lastRolloverAsyncAction := none
  fileLength := 0

/-- The state of `readyApp` before any call. -/
def readySys : Sys Unit := { app := readyApp, world := (), trace := [] }

/-- As `quietEnv`, but the triggering policy fires and closing an action throws. -/
def closeThrowsEnv : Env Unit :=
  { quietEnv with
    isTriggeringEvent := fun _ _ _ _ w => (.ok true, w)
    actionClose := fun _ w => (.error (Exn.mk "close failed"), w) }

/-- The state `readySys` with action 9 outstanding. -/
def busySys : Sys Unit :=
  { readySys with app := { readyApp with lastRolloverAsyncAction := some 9 } }

/-- A plan that switches to another file, started afresh, with a synchronous action (5). -/
def switchPlan : RolloverDescription :=
  { activeFileName := "app.2.log", append := false, synchronous := some 5, asynchronous := none }

/-- As `quietEnv`, but the rolling policy returns `switchPlan`, executing an action
reports failure, and the layout has a header of five bytes. -/
def switchEnv : Env Unit :=
  { quietEnv with
    policyRollover := fun _ _ w => (.ok (some switchPlan), w)
    actionExecute := fun _ w => (.ok false, w)
    layoutHeader := fun w => (.ok [ByteBuffer.mk 5], w) }

/-- The state after `rollover` from `readySys` under `switchEnv`: writing to the new file. -/
def switchedSys : Sys Unit :=
  { app := { readyApp with
      fileName := "app.2.log"
      writer := some (Writer.mk (OutputStream.counting (OutputStream.raw 1)))
      fileLength := 5 }
    world := ()
    trace := [Call.rollover, Call.policyRollover (Policy.configured 1) "app.log",
      Call.newFileOutputStream "app.2.log" false, Call.createWriter (OutputStream.raw 1),
      Call.closeWriter, Call.streamClose 0, Call.setFile "app.2.log",
      Call.setWriter (Writer.mk (OutputStream.counting (OutputStream.raw 1))),
      Call.actionExecute 5, Call.writeHeader, Call.layoutHeader, Call.streamWrite 1 5] }

/-- As `quietEnv`, on a platform whose `size_t` has four bits. -/
def narrowEnv : Env Unit := { quietEnv with sizeBits := 4 }

/-- A plan that switches to another file, started afresh, without any action. -/
def freshPlan : RolloverDescription :=
  { activeFileName := "app.2.log", append := false, synchronous := none, asynchronous := none }

/-- As `quietEnv`, but the rolling policy returns `freshPlan` and the layout has a header
of five bytes. -/
def headerEnv : Env Unit :=
  { quietEnv with
    policyRollover := fun _ _ w => (.ok (some freshPlan), w)
    layoutHeader := fun w => (.ok [ByteBuffer.mk 5], w) }

/-- The state `readySys` after a hundred bytes have been written. -/
def grownSys : Sys Unit :=
  { readySys with app := { readyApp with fileLength := 100 } }

/-- A plan that keeps the file name and appends, without any action. -/
def appendPlan : RolloverDescription :=
  { activeFileName := "app.log", append := true, synchronous := none, asynchronous := none }

/-- As `quietEnv`, but the rolling policy returns `appendPlan`, every file is forty bytes
long and the layout has a header of five bytes. -/
def appendEnv : Env Unit :=
  { quietEnv with
    policyRollover := fun _ _ w => (.ok (some appendPlan), w)
    fileLength := fun _ w => (.ok 40, w)
    layoutHeader := fun w => (.ok [ByteBuffer.mk 5], w) }

/-- Modelled from the spec: the size threshold trigger (§4.2), which is not in the
sources: it fires when the length estimate has reached the configured maximum.  The
other collaborators are those of `quietEnv`. -/
def sizeEnv : Env Unit :=
  { quietEnv with
    isTriggeringEvent := fun pol _ _ len w =>
      match pol with
      | .sizeBased maxFileSize => (.ok (decide (maxFileSize ≤ (len : Int))), w)
      | _ => (.ok false, w) }

/-- The state `readySys` with a size threshold trigger of ten bytes. -/
def sizeSys : Sys Unit :=
  { readySys with app := { readyApp with triggeringPolicy := some (Policy.sizeBased 10) } }

/-- As `quietEnv`, but evaluating the triggering policy throws. -/
def triggerThrowsEnv : Env Unit :=
  { quietEnv with
    isTriggeringEvent := fun _ _ _ _ w => (.error (Exn.mk "trigger failed"), w) }

/-- As `quietEnv`, but the triggering policy fires and the rolling policy throws. -/
def rollingThrowsEnv : Env Unit :=
  { quietEnv with
    isTriggeringEvent := fun _ _ _ _ w => (.ok true, w)
    policyRollover := fun _ _ w => (.error (Exn.mk "no plan"), w) }

/-- As `quietEnv`, but the activation of a policy throws. -/
def activationThrowsEnv : Env Unit :=
  { quietEnv with
    policyActivateOptions := fun _ w => (.error (Exn.mk "bad option"), w) }

/-- An initial plan: another file, started afresh, with an asynchronous action (3). -/
def startPlan : RolloverDescription :=
  { activeFileName := "other.log", append := false, synchronous := none, asynchronous := some 3 }

/-- As `quietEnv`, but the rolling policy has the initial plan `startPlan` and no file can
be opened. -/
def openFailsEnv : Env Unit :=
  { quietEnv with
    policyInitialize := fun _ _ _ w => (.ok (some startPlan), w)
    newFileOutputStream := fun _ _ w => (.error (Exn.mk "cannot open"), w) }

/-- As `quietEnv`, but the rolling policy throws when asked for its initial plan. -/
def initializeThrowsEnv : Env Unit :=
  { quietEnv with
    policyInitialize := fun _ _ _ w => (.error (Exn.mk "bad pattern"), w) }

/-- An appender on `app.log` that has not been activated: no policy, no writer. -/
def freshApp : Appender :=
  { readyApp with writer := none, triggeringPolicy := none, rollingPolicy := none }

/-- The state of `freshApp` before any call. -/
def freshSys : Sys Unit := { app := freshApp, world := (), trace := [] }

/-- A plan that keeps the file name, starts afresh and compresses asynchronously (action 9). -/
def compressPlan : RolloverDescription :=
  { activeFileName := "app.log", append := false, synchronous := none, asynchronous := some 9 }

/-- As `quietEnv`, but the rolling policy returns `compressPlan` on rollover and has the
initial plan `startPlan`. -/
def compressEnv : Env Unit :=
  { quietEnv with
    policyRollover := fun _ _ w => (.ok (some compressPlan), w)
    policyInitialize := fun _ _ _ w => (.ok (some startPlan), w) }

/-- Modelled from the spec: the comparison behind `StringHelper::equalsIgnoreCase`, which
is not in the sources: the name matches character by character, each character being
that of `upper` or that of `lower` (§6: option names are recognised whatever their
case). -/
def equalsIgnoreCaseChars : List Char → List Char → List Char → Bool
  | [], [], [] => true
  | c :: name, u :: upper, l :: lower =>
    (c == u || c == l) && equalsIgnoreCaseChars name upper lower
  | _, _, _ => false

/-- Helpers for the legacy appender: the comparison above, a file size and an integer
reader that only know `10MB` and `3`, and a wrapped appender that understands the
option `File`. -/
def stringHelpers : Obsolete.Helpers Unit where
  equalsIgnoreCase := fun name upper lower =>
    equalsIgnoreCaseChars name.data upper.data lower.data
  toFileSize := fun value dflt => if value = "10MB" then 10 * 1024 * 1024 else dflt
  toInt := fun value => if value = "3" then 3 else 0
  rfaSetOption := fun name value => if name = "File" then setFile value else pure ()

/-- As `switchEnv`, but opening an output stream throws. -/
def openThrowsEnv : Env Unit :=
  { switchEnv with
    newFileOutputStream := fun _ _ w => (.error (Exn.mk "cannot open"), w) }

/-- As `switchEnv`, but writing to a stream throws. -/
def writeThrowsEnv : Env Unit :=
  { switchEnv with
    streamWrite := fun _ _ w => (.error (Exn.mk "disk full"), w) }

/-- An initial plan: another file, appended to, after a synchronous action (5), with an
asynchronous action (3). -/
def resumePlan : RolloverDescription :=
  { activeFileName := "other.log", append := true, synchronous := some 5, asynchronous := some 3 }

/-- As `quietEnv`, but the rolling policy has the initial plan `resumePlan` and the length
of a file cannot be read. -/
def lengthThrowsEnv : Env Unit :=
  { quietEnv with
    policyInitialize := fun _ _ _ w => (.ok (some resumePlan), w)
    fileLength := fun _ w => (.error (Exn.mk "no such file"), w) }

end Instances

/-! ## Evaluation rules of the monad -/

section Rules

variable {W α β : Type}

@[simp] theorem run_pure (a : α) (s : Sys W) : (pure a : M W α).run s = (.ok a, s) := rfl

@[simp] theorem run_bind (m : M W α) (f : α → M W β) (s : Sys W) :
    (m >>= f).run s =
      match m.run s with
      | (.ok a, s1) => (f a).run s1
      | (.error e, s1) => (.error e, s1) := rfl

@[simp] theorem run_throw (e : Exn) (s : Sys W) : (throw e : M W α).run s = (.error e, s) := rfl

@[simp] theorem run_tryCatch (m : M W α) (h : Exn → M W α) (s : Sys W) :
    (tryCatch m h).run s =
      match m.run s with
      | (.ok a, s1) => (.ok a, s1)
      | (.error e, s1) => (h e).run s1 := rfl

@[simp] theorem run_getApp (s : Sys W) : (getApp : M W Appender).run s = (.ok s.app, s) := rfl

@[simp] theorem run_modifyApp (f : Appender → Appender) (s : Sys W) :
    (modifyApp f : M W Unit).run s = (.ok (), { s with app := f s.app }) := rfl

@[simp] theorem run_call (c : Call) (s : Sys W) :
    (call c : M W Unit).run s = (.ok (), { s with trace := s.trace ++ [c] }) := rfl

@[simp] theorem run_ext (c : Call) (f : W → Except Exn α × W) (s : Sys W) :
    (ext c f).run s = ((f s.world).1, { s with world := (f s.world).2, trace := s.trace ++ [c] }) :=
  rfl

end Rules

/-! ## Rules for `Emits` -/

section Traces

variable {W α β : Type}

theorem Emits.mono {P Q : Call → Prop} {m : M W α} (h : Emits P m) (hPQ : ∀ c, P c → Q c) :
    Emits Q m := by
  intro s
  obtain ⟨seg, h1, h2⟩ := h s
  exact ⟨seg, h1, fun c hc => hPQ c (h2 c hc)⟩

theorem emits_pure (P : Call → Prop) (a : α) : Emits P (pure a : M W α) := by
  intro s
  exact ⟨[], by simp, by simp⟩

theorem emits_throw (P : Call → Prop) (e : Exn) : Emits P (throw e : M W α) := by
  intro s
  exact ⟨[], by simp, by simp⟩

theorem emits_getApp (P : Call → Prop) : Emits P (getApp : M W Appender) := by
  intro s
  exact ⟨[], by simp, by simp⟩

theorem emits_modifyApp (P : Call → Prop) (f : Appender → Appender) :
    Emits P (modifyApp f : M W Unit) := by
  intro s
  exact ⟨[], by simp, by simp⟩

theorem emits_call {P : Call → Prop} {c : Call} (h : P c) : Emits P (call c : M W Unit) := by
  intro s
  exact ⟨[c], by simp, by simpa using h⟩

theorem emits_ext {P : Call → Prop} {c : Call} (h : P c) (f : W → Except Exn α × W) :
    Emits P (ext c f) := by
  intro s
  exact ⟨[c], by simp, by simpa using h⟩

theorem emits_bind {P : Call → Prop} {m : M W α} {f : α → M W β} (hm : Emits P m)
    (hf : ∀ a, Emits P (f a)) : Emits P (m >>= f) := by
  intro s
  obtain ⟨seg1, h1, h2⟩ := hm s
  rw [run_bind]
  rcases hrun : m.run s with ⟨r, s1⟩
  rw [hrun] at h1
  cases r with
  | error e => exact ⟨seg1, h1, h2⟩
  | ok a =>
    obtain ⟨seg2, h3, h4⟩ := hf a s1
    refine ⟨seg1 ++ seg2, ?_, ?_⟩
    · simp only at h1
      simp only [h3, h1, List.append_assoc]
    · intro c hc
      rcases List.mem_append.mp hc with hc | hc
      · exact h2 c hc
      · exact h4 c hc

theorem emits_tryCatch {P : Call → Prop} {m : M W α} {h : Exn → M W α} (hm : Emits P m)
    (hh : ∀ e, Emits P (h e)) : Emits P (tryCatch m h) := by
  intro s
  obtain ⟨seg1, h1, h2⟩ := hm s
  rw [run_tryCatch]
  rcases hrun : m.run s with ⟨r, s1⟩
  rw [hrun] at h1
  cases r with
  | ok a => exact ⟨seg1, h1, h2⟩
  | error e =>
    obtain ⟨seg2, h3, h4⟩ := hh e s1
    refine ⟨seg1 ++ seg2, ?_, ?_⟩
    · simp only at h1
      simp only [h3, h1, List.append_assoc]
    · intro c hc
      rcases List.mem_append.mp hc with hc | hc
      · exact h2 c hc
      · exact h4 c hc

end Traces

/-! ## What each operation appends to the trace -/

section OpTraces

variable {W α β : Type}

theorem emits_write (env : Env W) (os : OutputStream) (buf : ByteBuffer) :
    Emits (fun c => c.level ≤ 0) (OutputStream.write env os buf) := by
  induction os with
  | raw id => exact emits_ext (by simp [Call.level]) _
  | counting os ih =>
    unfold OutputStream.write incrementFileLength
    exact emits_bind ih (fun _ => emits_modifyApp _ _)

theorem emits_close (env : Env W) (os : OutputStream) :
    Emits (fun c => c.level ≤ 0) (OutputStream.close env os) := by
  induction os with
  | raw id => exact emits_ext (by simp [Call.level]) _
  | counting os ih =>
    unfold OutputStream.close
    exact ih

theorem emits_writeAll (env : Env W) (os : OutputStream) (bufs : List ByteBuffer) :
    Emits (fun c => c.level ≤ 0) (OutputStream.writeAll env os bufs) := by
  induction bufs with
  | nil => exact emits_pure _ _
  | cons buf rest ih =>
    unfold OutputStream.writeAll
    exact emits_bind (emits_write env os buf) (fun _ => ih)

theorem emits_flush (env : Env W) (os : OutputStream) :
    Emits (fun c => c.level ≤ 0) (OutputStream.flush env os) := by
  induction os with
  | raw id => exact emits_ext (by simp [Call.level]) _
  | counting os ih =>
    unfold OutputStream.flush
    exact ih

/-- A body that records a call and then runs `m` appends that call followed by what `m` appends. -/
theorem emits_after_call {P : Call → Prop} {c : Call} {m : M W α} (hm : Emits P m)
    (s : Sys W) :
    ∃ seg, ((call c >>= fun _ => m).run s).2.trace = s.trace ++ c :: seg ∧ ∀ x ∈ seg, P x := by
  obtain ⟨seg, h1, h2⟩ := hm { s with trace := s.trace ++ [c] }
  refine ⟨seg, ?_, h2⟩
  rw [run_bind, run_call]
  simp only [h1, List.append_assoc, List.singleton_append]

theorem closeWriter_trace (env : Env W) (s : Sys W) :
    ∃ cl, ((closeWriter env).run s).2.trace = s.trace ++ Call.closeWriter :: cl ∧
      ∀ c ∈ cl, c.level ≤ 0 := by
  unfold closeWriter
  refine emits_after_call ?_ s
  repeat (first
    | exact emits_pure _ _
    | exact emits_getApp _
    | exact emits_modifyApp _ _
    | exact emits_close env _
    | refine emits_bind ?_ (fun _ => ?_)
    | split)

theorem writeHeader_trace (env : Env W) (s : Sys W) :
    ∃ hdr, ((writeHeader env).run s).2.trace = s.trace ++ Call.writeHeader :: hdr ∧
      ∀ c ∈ hdr, c.level ≤ 0 := by
  unfold writeHeader
  refine emits_after_call ?_ s
  repeat (first
    | exact emits_pure _ _
    | exact emits_getApp _
    | exact emits_ext (by simp [Call.level]) _
    | exact emits_writeAll env _ _
    | refine emits_bind ?_ (fun _ => ?_)
    | split)

theorem emits_writeHeader (env : Env W) : Emits (fun c => c.level ≤ 1) (writeHeader env) := by
  intro s
  obtain ⟨hdr, h1, h2⟩ := writeHeader_trace env s
  refine ⟨Call.writeHeader :: hdr, h1, ?_⟩
  intro c hc
  rcases List.mem_cons.mp hc with rfl | hc
  · simp [Call.level]
  · exact Nat.le_trans (h2 c hc) (by decide)

theorem emits_closeWriter (env : Env W) : Emits (fun c => c.level ≤ 2) (closeWriter env) := by
  intro s
  obtain ⟨cl, h1, h2⟩ := closeWriter_trace env s
  refine ⟨Call.closeWriter :: cl, h1, ?_⟩
  intro c hc
  rcases List.mem_cons.mp hc with rfl | hc
  · simp [Call.level]
  · exact Nat.le_trans (h2 c hc) (by decide)

theorem setFileOpen_trace (env : Env W) (file : LogString) (append bufferedIo : Bool)
    (bufferSize : Nat) (s : Sys W) :
    ∃ post, ((setFileOpen env file append bufferedIo bufferSize).run s).2.trace =
        s.trace ++ Call.setFileOpen file append bufferedIo bufferSize :: post ∧
      ∀ c ∈ post, c.level ≤ 1 := by
  unfold setFileOpen newFileOutputStream createWriter
  refine emits_after_call ?_ s
  repeat (first
    | exact emits_pure _ _
    | exact emits_modifyApp _ _
    | exact emits_call (by simp [Call.level])
    | exact emits_ext (by simp [Call.level]) _
    | exact emits_writeHeader env
    | refine emits_bind ?_ (fun _ => ?_))

theorem emits_setFileOpen (env : Env W) (file : LogString) (append bufferedIo : Bool)
    (bufferSize : Nat) :
    Emits (fun c => c.level ≤ 2) (setFileOpen env file append bufferedIo bufferSize) := by
  intro s
  obtain ⟨post, h1, h2⟩ := setFileOpen_trace env file append bufferedIo bufferSize s
  refine ⟨_ :: post, h1, ?_⟩
  intro c hc
  rcases List.mem_cons.mp hc with rfl | hc
  · simp [Call.level]
  · exact Nat.le_trans (h2 c hc) (by decide)

theorem baseSubAppend_trace (env : Env W) (event : LoggingEvent) (s : Sys W) :
    ∃ rest, ((baseSubAppend env event).run s).2.trace =
        s.trace ++ Call.baseSubAppend event :: rest ∧
      ∀ c ∈ rest, c.level ≤ 0 := by
  unfold baseSubAppend
  refine emits_after_call ?_ s
  repeat (first
    | exact emits_pure _ _
    | exact emits_getApp _
    | exact emits_ext (by simp [Call.level]) _
    | exact emits_writeAll env _ _
    | refine emits_bind ?_ (fun _ => ?_)
    | split)

theorem emits_closeLastAsyncAction (env : Env W) :
    Emits (fun c => c.level ≤ 2) (closeLastAsyncAction env) := by
  unfold closeLastAsyncAction actionClose
  repeat (first
    | exact emits_pure _ _
    | exact emits_getApp _
    | exact emits_ext (by simp [Call.level]) _
    | refine emits_bind ?_ (fun _ => ?_)
    | split)

theorem emits_runSynchronous (env : Env W) (plan : RolloverDescription) (warning : String) :
    Emits (fun c => c.level ≤ 2) (runSynchronous env plan warning) := by
  unfold runSynchronous actionExecute warn
  repeat (first
    | exact emits_pure _ _
    | exact emits_call (by simp [Call.level])
    | exact emits_ext (by simp [Call.level]) _
    | refine emits_bind ?_ (fun _ => ?_)
    | refine emits_tryCatch ?_ (fun _ => ?_)
    | split)

theorem emits_refreshAfterRollover (env : Env W) (plan : RolloverDescription) :
    Emits (fun c => c.level ≤ 2) (refreshAfterRollover env plan) := by
  unfold refreshAfterRollover fileLengthOf
  repeat (first
    | exact emits_pure _ _
    | exact emits_modifyApp _ _
    | exact emits_ext (by simp [Call.level]) _
    | refine emits_bind ?_ (fun _ => ?_)
    | split)

theorem emits_rolloverSameFile (env : Env W) (plan : RolloverDescription) :
    Emits (fun c => c.level ≤ 2) (rolloverSameFile env plan) := by
  unfold rolloverSameFile
  repeat (first
    | exact emits_getApp _
    | exact emits_closeWriter env
    | exact emits_runSynchronous env _ _
    | exact emits_refreshAfterRollover env _
    | exact emits_setFileOpen env _ _ _ _
    | refine emits_bind ?_ (fun _ => ?_)
    | split)

theorem emits_rolloverNewFile (env : Env W) (plan : RolloverDescription) :
    Emits (fun c => c.level ≤ 2) (rolloverNewFile env plan) := by
  unfold rolloverNewFile newFileOutputStream createWriter setFile setWriter
  repeat (first
    | exact emits_pure _ _
    | exact emits_modifyApp _ _
    | exact emits_call (by simp [Call.level])
    | exact emits_ext (by simp [Call.level]) _
    | exact emits_closeWriter env
    | exact emits_runSynchronous env _ _
    | exact emits_refreshAfterRollover env _
    | exact (emits_writeHeader env).mono (fun c hc => Nat.le_trans hc (by decide))
    | refine emits_bind ?_ (fun _ => ?_)
    | split)

theorem emits_rolloverGuarded (env : Env W) (pol : Policy) :
    Emits (fun c => c.level ≤ 2) (rolloverGuarded env pol) := by
  unfold rolloverGuarded policyRollover getFile
  repeat (first
    | exact emits_pure _ _
    | exact emits_getApp _
    | exact emits_ext (by simp [Call.level]) _
    | exact emits_rolloverSameFile env _
    | exact emits_rolloverNewFile env _
    | refine emits_bind ?_ (fun _ => ?_)
    | split)

theorem rollover_trace (env : Env W) (s : Sys W) :
    ∃ seg, ((rollover env).run s).2.trace = s.trace ++ Call.rollover :: seg ∧
      ∀ c ∈ seg, c.level ≤ 2 := by
  unfold rollover warn
  refine emits_after_call ?_ s
  repeat (first
    | exact emits_pure _ _
    | exact emits_getApp _
    | exact emits_call (by simp [Call.level])
    | exact emits_closeLastAsyncAction env
    | exact emits_rolloverGuarded env _
    | refine emits_bind ?_ (fun _ => ?_)
    | refine emits_tryCatch ?_ (fun _ => ?_)
    | split)

end OpTraces

/-! ## Properties of the appender -/

/-! ### `subAppend`: check, rollover, write -/

section Append

variable {W : Type}

theorem count_rollover_of_level {seg : List Call} (h : ∀ c ∈ seg, c.level ≤ 2) :
    seg.count Call.rollover = 0 := by
  rw [List.count_eq_zero]
  intro hmem
  exact absurd (h _ hmem) (by decide)

/-- C1, as stated for every appender state and every event, fails: the evaluation of the
triggering policy is outside the `try` block of `subAppend`, so when it throws the
exception leaves `subAppend` and the event is never handed to the write path. -/
theorem subAppend_counterexample :
    (subAppend triggerThrowsEnv 3).run grownSys =
      (.error (Exn.mk "trigger failed"),
        { grownSys with
          trace := [Call.isTriggeringEvent (Policy.configured 0) 3 "app.log" 100] }) ∧
    ((subAppend triggerThrowsEnv 3).run grownSys).2.trace.count (Call.baseSubAppend 3) = 0 := by
  decide!

/-- C1, amended: in every state with a triggering policy installed and for every event on
which the evaluation of that policy returns (`fired`), `subAppend` first consults the
triggering policy; `rollover` is entered once if it fired and not at all otherwise, an
exception leaving `rollover` is swallowed, and the event is then handed to the inherited
write path exactly once: the outcome of `subAppend` is the outcome of that write path. -/
theorem subAppend_checks_then_writes (env : Env W) (s : Sys W) (event : LoggingEvent)
    (pol : Policy) (fired : Bool) (w1 : W)
    (hpol : s.app.triggeringPolicy = some pol)
    (htrig : env.isTriggeringEvent pol event s.app.fileName s.app.fileLength s.world
      = (.ok fired, w1)) :
    ∃ (s2 : Sys W) (mid rest : List Call),
      (subAppend env event).run s = (baseSubAppend env event).run s2 ∧
      s2.trace = s.trace ++
        Call.isTriggeringEvent pol event s.app.fileName s.app.fileLength :: mid ∧
      ((subAppend env event).run s).2.trace = s2.trace ++ Call.baseSubAppend event :: rest ∧
      mid.count Call.rollover = (if fired then 1 else 0) ∧
      (∀ c ∈ mid, c = Call.rollover ∨ c.level ≤ 2) ∧
      (∀ c ∈ rest, c.level ≤ 0) ∧
      (fired = false → s2.app = s.app ∧ s2.world = w1) ∧
      (fired = true →
        s2.app = ((rollover env).run { s with world := w1, trace := s.trace ++
          [Call.isTriggeringEvent pol event s.app.fileName s.app.fileLength] }).2.app ∧
        s2.world = ((rollover env).run { s with world := w1, trace := s.trace ++
          [Call.isTriggeringEvent pol event s.app.fileName s.app.fileLength] }).2.world) := by
  cases fired with
  | false =>
    refine ⟨{ s with world := w1, trace := s.trace ++
      [Call.isTriggeringEvent pol event s.app.fileName s.app.fileLength] }, [], ?_⟩
    obtain ⟨rest, h1, h2⟩ := baseSubAppend_trace env event { s with world := w1, trace := s.trace ++
      [Call.isTriggeringEvent pol event s.app.fileName s.app.fileLength] }
    refine ⟨rest, ?_, ?_, ?_, ?_, ?_, h2, ?_, ?_⟩
    · simp [subAppend, hpol, isTriggeringEvent, getFile, getFileLength, htrig]
    · simp
    · simp [subAppend, hpol, isTriggeringEvent, getFile, getFileLength, htrig] 
      simpa using h1
    · simp
    · simp
    · simp
    · simp
  | true =>
    obtain ⟨seg, hseg, hlev⟩ := rollover_trace env { s with world := w1, trace := s.trace ++
      [Call.isTriggeringEvent pol event s.app.fileName s.app.fileLength] }
    rcases hr : (rollover env).run { s with world := w1, trace := s.trace ++
      [Call.isTriggeringEvent pol event s.app.fileName s.app.fileLength] } with ⟨r, t⟩
    rw [hr] at hseg
    simp only at hseg
    cases r with
    | ok b =>
      obtain ⟨rest, h1, h2⟩ := baseSubAppend_trace env event t
      have hrun : (subAppend env event).run s = (baseSubAppend env event).run t := by
        simp [subAppend, hpol, isTriggeringEvent, getFile, getFileLength, htrig, hr]
      refine ⟨t, Call.rollover :: seg, rest, hrun, ?_, ?_, ?_, ?_, h2, ?_, ?_⟩
      · simp [hseg]
      · rw [hrun]
        exact h1
      · simp [count_rollover_of_level hlev]
      · intro c hc
        rcases List.mem_cons.mp hc with rfl | hc
        · exact Or.inl rfl
        · exact Or.inr (hlev c hc)
      · simp
      · simp [hr]
    | error e =>
      obtain ⟨rest, h1, h2⟩ := baseSubAppend_trace env event
        { t with trace := t.trace ++ [Call.warn "Exception during rollover attempt."] }
      have hrun : (subAppend env event).run s = (baseSubAppend env event).run
          { t with trace := t.trace ++ [Call.warn "Exception during rollover attempt."] } := by
        simp [subAppend, hpol, isTriggeringEvent, getFile, getFileLength, htrig, hr, warn]
      refine ⟨_, Call.rollover :: (seg ++ [Call.warn "Exception during rollover attempt."]),
        rest, hrun, ?_, ?_, ?_, ?_, h2, ?_, ?_⟩
      · simp [hseg]
      · rw [hrun]
        exact h1
      · have hlev2 : ∀ c ∈ seg ++ [Call.warn "Exception during rollover attempt."],
            c.level ≤ 2 := by
          intro c hc
          rcases List.mem_append.mp hc with hc | hc
          · exact hlev c hc
          · rw [List.mem_singleton.mp hc]
            simp [Call.level]
        simp only [List.count_cons_self, ite_true]
        rw [count_rollover_of_level hlev2]
      · intro c hc
        rcases List.mem_cons.mp hc with rfl | hc
        · exact Or.inl rfl
        · rcases List.mem_append.mp hc with hc | hc
          · exact Or.inr (hlev c hc)
          · rw [List.mem_singleton.mp hc]
            simp [Call.level]
      · simp
      · simp [hr]

/-- Witness for C1: the policy fires, `rollover` throws because closing the outstanding
action throws, and the event is still written. -/
theorem subAppend_checks_then_writes_witness :
    busySys.app.triggeringPolicy = some (Policy.configured 0) ∧
    closeThrowsEnv.isTriggeringEvent (Policy.configured 0) 7 busySys.app.fileName
      busySys.app.fileLength busySys.world = (.ok true, ()) ∧
    ((rollover closeThrowsEnv).run busySys).1 = .error (Exn.mk "close failed") ∧
    ∃ (s2 : Sys Unit) (mid rest : List Call),
      (subAppend closeThrowsEnv 7).run busySys = (baseSubAppend closeThrowsEnv 7).run s2 ∧
      s2.trace = busySys.trace ++
        Call.isTriggeringEvent (Policy.configured 0) 7 busySys.app.fileName
          busySys.app.fileLength :: mid ∧
      ((subAppend closeThrowsEnv 7).run busySys).2.trace =
        s2.trace ++ Call.baseSubAppend 7 :: rest ∧
      mid.count Call.rollover = (if true then 1 else 0) ∧
      (∀ c ∈ mid, c = Call.rollover ∨ c.level ≤ 2) ∧
      (∀ c ∈ rest, c.level ≤ 0) ∧
      (true = false → s2.app = busySys.app ∧ s2.world = ()) ∧
      (true = true →
        s2.app = ((rollover closeThrowsEnv).run { busySys with world := (), trace :=
          busySys.trace ++ [Call.isTriggeringEvent (Policy.configured 0) 7
            busySys.app.fileName busySys.app.fileLength] }).2.app ∧
        s2.world = ((rollover closeThrowsEnv).run { busySys with world := (), trace :=
          busySys.trace ++ [Call.isTriggeringEvent (Policy.configured 0) 7
            busySys.app.fileName busySys.app.fileLength] }).2.world) :=
  ⟨rfl, rfl, rfl,
    subAppend_checks_then_writes closeThrowsEnv busySys 7 (Policy.configured 0) true () rfl rfl⟩

end Append

/-! ### Stepping through `rollover` -/

section RolloverSteps

variable {W : Type}

theorem closeLastAsyncAction_app (env : Env W) (s : Sys W) :
    ((closeLastAsyncAction env).run s).2.app = s.app := by
  unfold closeLastAsyncAction actionClose
  rw [run_bind, run_getApp]
  simp only
  split <;> simp

theorem closeLastAsyncAction_trace (env : Env W) (s : Sys W) :
    ((closeLastAsyncAction env).run s).2.trace = s.trace ++ waitCalls s.app := by
  unfold closeLastAsyncAction actionClose waitCalls
  rw [run_bind, run_getApp]
  simp only
  split <;> simp

/-- With a rolling policy and the wait completed, `rollover` is its guarded part under the handler. -/
theorem rollover_run_of_wait (env : Env W) (s s1 : Sys W) (pol : Policy)
    (hpol : s.app.rollingPolicy = some pol)
    (hwait : (closeLastAsyncAction env).run (entered s) = (.ok (), s1)) :
    (rollover env).run s =
      (tryCatch (rolloverGuarded env pol) fun _ => do
        warn "Exception during rollover"
        pure false).run s1 := by
  have h1 : (rollover env).run s = ((closeLastAsyncAction env >>= fun _ =>
      tryCatch (rolloverGuarded env pol) fun _ => do
        warn "Exception during rollover"
        pure false).run (entered s)) := by
    simp [rollover, hpol, entered]
  rw [h1, run_bind, hwait]

/-- Without a plan the guarded part of `rollover` changes only the world and the trace. -/
theorem rolloverGuarded_run_none (env : Env W) (s1 : Sys W) (pol : Policy) (w2 : W)
    (hplan : env.policyRollover pol s1.app.fileName s1.world = (.ok none, w2)) :
    (rolloverGuarded env pol).run s1 =
      (.ok false, { s1 with world := w2,
                            trace := s1.trace ++ [Call.policyRollover pol s1.app.fileName] }) := by
  simp [rolloverGuarded, policyRollover, getFile, hplan]

end RolloverSteps

/-! ### `rollover` without rotation -/

section NoRotation

variable {W : Type}

/-- C2: when no rotation is performed, `rollover` returns false and leaves the active
file name, the installed writer, the append flag and the length estimate unchanged
(the whole appender object is unchanged).  That is the case without a rolling policy,
where moreover no collaborator is called (only the entry into `rollover` is recorded and
the world is untouched), and when the rolling policy returns no plan. -/
theorem rollover_not_performed (env : Env W) (s : Sys W)
    (h : s.app.rollingPolicy = none ∨
      ∃ pol s1 w2, s.app.rollingPolicy = some pol ∧
        (closeLastAsyncAction env).run (entered s) = (.ok (), s1) ∧
        env.policyRollover pol s1.app.fileName s1.world = (.ok none, w2)) :
    ((rollover env).run s).1 = .ok false ∧
    ((rollover env).run s).2.app.fileName = s.app.fileName ∧
    ((rollover env).run s).2.app.writer = s.app.writer ∧
    ((rollover env).run s).2.app.fileAppend = s.app.fileAppend ∧
    ((rollover env).run s).2.app.fileLength = s.app.fileLength ∧
    ((rollover env).run s).2.app = s.app ∧
    (s.app.rollingPolicy = none → (rollover env).run s = (.ok false, entered s)) := by
  rcases h with h | ⟨pol, s1, w2, hpol, hwait, hplan⟩
  · have hrun : (rollover env).run s = (.ok false, entered s) := by
      simp [rollover, h, entered]
    simp [hrun, entered]
  · have happ : s1.app = s.app := by
      have := closeLastAsyncAction_app env (entered s)
      rw [hwait] at this
      simpa [entered] using this
    have hrun := rollover_run_of_wait env s s1 pol hpol hwait
    rw [run_tryCatch, rolloverGuarded_run_none env s1 pol w2 hplan] at hrun
    simp only at hrun
    simp [hrun, happ, hpol]

/-- Witness for C2: a configured rolling policy that returns no plan, with an action outstanding. -/
theorem rollover_not_performed_witness :
    (busySys.app.rollingPolicy = none ∨
      ∃ pol s1 w2, busySys.app.rollingPolicy = some pol ∧
        (closeLastAsyncAction quietEnv).run (entered busySys) = (.ok (), s1) ∧
        quietEnv.policyRollover pol s1.app.fileName s1.world = (.ok none, w2)) ∧
    ((rollover quietEnv).run busySys).1 = .ok false ∧
    ((rollover quietEnv).run busySys).2.app.fileName = busySys.app.fileName ∧
    ((rollover quietEnv).run busySys).2.app.writer = busySys.app.writer ∧
    ((rollover quietEnv).run busySys).2.app.fileAppend = busySys.app.fileAppend ∧
    ((rollover quietEnv).run busySys).2.app.fileLength = busySys.app.fileLength ∧
    ((rollover quietEnv).run busySys).2.app = busySys.app ∧
    (busySys.app.rollingPolicy = none →
      (rollover quietEnv).run busySys = (.ok false, entered busySys)) :=
  ⟨Or.inr ⟨Policy.configured 1, _, (), rfl, rfl, rfl⟩,
    rollover_not_performed quietEnv busySys
      (Or.inr ⟨Policy.configured 1, _, (), rfl, rfl, rfl⟩)⟩

end NoRotation

/-! ### Steps of the two branches of `rollover` -/

section BranchSteps

variable {W : Type}

theorem close_app (env : Env W) (os : OutputStream) (s : Sys W) :
    ((OutputStream.close env os).run s).2.app = s.app := by
  induction os with
  | raw id => simp [OutputStream.close]
  | counting os ih =>
    unfold OutputStream.close
    exact ih

theorem flush_app (env : Env W) (os : OutputStream) (s : Sys W) :
    ((OutputStream.flush env os).run s).2.app = s.app := by
  induction os with
  | raw id => simp [OutputStream.flush]
  | counting os ih =>
    unfold OutputStream.flush
    exact ih

theorem runSynchronous_run (env : Env W) (plan : RolloverDescription) (warning : String)
    (s : Sys W) :
    (runSynchronous env plan warning).run s =
      (.ok (syncSucceeds env plan s.world), afterSync env plan warning s) := by
  unfold runSynchronous syncSucceeds afterSync syncWorld syncCalls actionExecute warn
  cases hsync : plan.synchronous with
  | none => simp
  | some a =>
    simp only [run_tryCatch, run_ext]
    rcases hex : env.actionExecute a s.world with ⟨r, w⟩
    cases r <;> simp

theorem rolloverGuarded_run_some (env : Env W) (s1 : Sys W) (pol : Policy)
    (plan : RolloverDescription) (w2 : W)
    (hplan : env.policyRollover pol s1.app.fileName s1.world = (.ok (some plan), w2)) :
    (rolloverGuarded env pol).run s1 =
      ((if plan.activeFileName = s1.app.fileName then rolloverSameFile env plan
        else rolloverNewFile env plan) >>= fun _ => pure true).run (afterPolicy s1 pol w2) := by
  simp only [rolloverGuarded, policyRollover, getFile, afterPolicy, run_bind, run_getApp,
    run_ext, run_pure, hplan]
  split <;> simp

/-- What a completed bookkeeping step of `rollover` has done. -/
theorem refreshAfterRollover_ok (env : Env W) (plan : RolloverDescription) (s t : Sys W)
    (h : (refreshAfterRollover env plan).run s = (.ok (), t)) :
    t.trace = s.trace ++ lengthCalls plan true ∧
    t.app = { s.app with
      fileLength := t.app.fileLength
      lastRolloverAsyncAction :=
        match plan.asynchronous with
        | none => s.app.lastRolloverAsyncAction
        | some a => some a } ∧
    (plan.append = false → t.app.fileLength = 0 ∧ t.world = s.world) ∧
    (plan.append = true →
      env.fileLength plan.activeFileName s.world = (.ok t.app.fileLength, t.world)) := by
  obtain ⟨⟨fn, fa, bio, bs, wr, nm, tp, rp, la, fl⟩, world, tr⟩ := s
  unfold refreshAfterRollover fileLengthOf at h
  unfold lengthCalls
  cases happ : plan.append with
  | false =>
    cases hasync : plan.asynchronous <;>
      simp [happ, hasync] at h <;> subst h <;> simp
  | true =>
    rcases hlen : env.fileLength plan.activeFileName world with ⟨r, w⟩
    cases r with
    | error e => simp [happ, hlen] at h
    | ok n =>
      cases hasync : plan.asynchronous <;>
        simp [happ, hasync, hlen] at h <;> subst h <;> simp

end BranchSteps

/-! ### `rollover` on the same file name -/

section SameFile

variable {W : Type}

end SameFile

/-! ### What writing leaves unchanged -/

section WriteFrames

variable {W : Type}

/-- A write changes no field of the appender but the length estimate. -/
theorem write_app (env : Env W) (os : OutputStream) (buf : ByteBuffer) (s : Sys W) :
    ∃ len, ((OutputStream.write env os buf).run s).2.app = { s.app with fileLength := len } := by
  induction os generalizing s with
  | raw id => exact ⟨s.app.fileLength, by simp [OutputStream.write]⟩
  | counting os ih =>
    unfold OutputStream.write incrementFileLength
    obtain ⟨len, hlen⟩ := ih s
    rw [run_bind]
    rcases hrun : (OutputStream.write env os buf).run s with ⟨r, t⟩
    rw [hrun] at hlen
    simp only at hlen
    cases r with
    | error e => exact ⟨len, hlen⟩
    | ok u => exact ⟨(len + buf.limit) % 2 ^ env.sizeBits, by simp [hlen]⟩

theorem writeAll_app (env : Env W) (os : OutputStream) (bufs : List ByteBuffer) (s : Sys W) :
    ∃ len, ((OutputStream.writeAll env os bufs).run s).2.app =
      { s.app with fileLength := len } := by
  induction bufs generalizing s with
  | nil => exact ⟨s.app.fileLength, by simp [OutputStream.writeAll]⟩
  | cons buf rest ih =>
    unfold OutputStream.writeAll
    obtain ⟨len, hlen⟩ := write_app env os buf s
    rw [run_bind]
    rcases hrun : (OutputStream.write env os buf).run s with ⟨r, t⟩
    rw [hrun] at hlen
    simp only at hlen
    cases r with
    | error e => exact ⟨len, hlen⟩
    | ok u =>
      obtain ⟨len2, hlen2⟩ := ih t
      exact ⟨len2, by simp [hlen2, hlen]⟩

/-- The header hook changes no field of the appender but the length estimate. -/
theorem writeHeader_app (env : Env W) (s : Sys W) :
    ∃ len, ((writeHeader env).run s).2.app = { s.app with fileLength := len } := by
  obtain ⟨⟨fn, fa, bio, bs, wr, nm, tp, rp, la, fl⟩, world, tr⟩ := s
  unfold writeHeader
  simp only [run_bind, run_call, run_getApp]
  cases wr with
  | none => exact ⟨fl, by simp⟩
  | some w =>
    simp only [run_ext]
    rcases hh : env.layoutHeader world with ⟨r, w1⟩
    cases r with
    | error e => exact ⟨fl, by simp [hh]⟩
    | ok bufs =>
      obtain ⟨len, hlen⟩ := writeAll_app env w.out bufs
        { app := ⟨fn, fa, bio, bs, some w, nm, tp, rp, la, fl⟩, world := w1,
          trace := tr ++ [Call.writeHeader, Call.layoutHeader] }
      exact ⟨len, by simpa [hh] using hlen⟩

end WriteFrames

/-! ### `rollover` onto another file name -/

section NewFile

variable {W : Type}

/-- C4, as stated for every plan with another file name, fails: when opening the new
output stream throws, the handler of `rollover` logs a warning and `rollover` returns
false with the file name and the writer it had before; when the header cannot be written
(the stream refuses the write), `rollover` returns false although the file name has been
switched. -/
theorem rollover_new_file_counterexample :
    switchPlan.activeFileName ≠ readySys.app.fileName ∧
    (rollover openThrowsEnv).run readySys =
      (.ok false,
        { readySys with
          trace := [Call.rollover, Call.policyRollover (Policy.configured 1) "app.log",
            Call.newFileOutputStream "app.2.log" false,
            Call.warn "Exception during rollover"] }) ∧
    ((rollover writeThrowsEnv).run readySys).1 = .ok false ∧
    ((rollover writeThrowsEnv).run readySys).2.app.fileName = "app.2.log" := by
  decide!

/-- C4, amended: for a plan with another file name, `rollover` opens the new output stream
at the target path with the plan's append flag and wraps it in a writer, closes the old
writer, switches the active file name, installs the new writer, runs the synchronous
action if there is one and writes the header, in this order.  When these steps complete
(the wait on the previous action, the opening, `closeWriter`, the length read that follows
a successful synchronous phase, the header write), whatever the synchronous action did
(returned true or false, or threw), `rollover` returns true without throwing, the active
file name is the plan's and the installed writer is the new one. -/
theorem rollover_new_file (env : Env W) (s s1 s3 s5 s6 : Sys W) (pol : Policy)
    (plan : RolloverDescription) (w2 w3 : W) (id : StreamId)
    (hpol : s.app.rollingPolicy = some pol)
    (hwait : (closeLastAsyncAction env).run (entered s) = (.ok (), s1))
    (hplan : env.policyRollover pol s1.app.fileName s1.world = (.ok (some plan), w2))
    (hdiff : plan.activeFileName ≠ s1.app.fileName)
    (hnew : env.newFileOutputStream plan.activeFileName plan.append w2 = (.ok id, w3))
    (hcw : (closeWriter env).run (opened (afterPolicy s1 pol w2) plan id w3) = (.ok (), s3))
    (hlen : if syncSucceeds env plan s3.world
      then (refreshAfterRollover env plan).run
        (afterSync env plan "Exception during rollover"
          (installed s3 plan (Writer.mk (OutputStream.counting (OutputStream.raw id)))))
        = (.ok (), s5)
      else s5 = afterSync env plan "Exception during rollover"
          (installed s3 plan (Writer.mk (OutputStream.counting (OutputStream.raw id)))))
    (hhdr : (writeHeader env).run s5 = (.ok (), s6)) :
    (rollover env).run s = (.ok true, s6) ∧
    s6.app.fileName = plan.activeFileName ∧
    s6.app.writer = some (Writer.mk (OutputStream.counting (OutputStream.raw id))) ∧
    ∃ cl hdr,
      s6.trace = s.trace ++ Call.rollover :: waitCalls s.app ++
        [Call.policyRollover pol s.app.fileName,
         Call.newFileOutputStream plan.activeFileName plan.append,
         Call.createWriter (OutputStream.raw id),
         Call.closeWriter] ++ cl ++
        [Call.setFile plan.activeFileName,
         Call.setWriter (Writer.mk (OutputStream.counting (OutputStream.raw id)))] ++
        syncCalls env plan "Exception during rollover" s3.world ++
        lengthCalls plan (syncSucceeds env plan s3.world) ++
        Call.writeHeader :: hdr ∧
      (∀ c ∈ cl, c.level ≤ 0) ∧ (∀ c ∈ hdr, c.level ≤ 0) := by
  have happ1 : s1.app = s.app := by
    have := closeLastAsyncAction_app env (entered s)
    rw [hwait] at this
    simpa [entered] using this
  have htr1 : s1.trace = s.trace ++ Call.rollover :: waitCalls s.app := by
    have := closeLastAsyncAction_trace env (entered s)
    rw [hwait] at this
    simpa [entered] using this
  obtain ⟨cl, htr3, hcl⟩ := closeWriter_trace env (opened (afterPolicy s1 pol w2) plan id w3)
  rw [hcw] at htr3
  simp only [afterPolicy, opened] at htr3
  obtain ⟨hdr, htr6, hhdrl⟩ := writeHeader_trace env s5
  obtain ⟨len6, happ6⟩ := writeHeader_app env s5
  rw [hhdr] at htr6 happ6
  simp only at htr6 happ6
  have h5 : s5.app.fileName = plan.activeFileName ∧
      s5.app.writer = some (Writer.mk (OutputStream.counting (OutputStream.raw id))) ∧
      s5.trace = s3.trace ++ [Call.setFile plan.activeFileName,
         Call.setWriter (Writer.mk (OutputStream.counting (OutputStream.raw id)))] ++
        syncCalls env plan "Exception during rollover" s3.world ++
        lengthCalls plan (syncSucceeds env plan s3.world) := by
    cases hs : syncSucceeds env plan s3.world with
    | false =>
      simp only [hs] at hlen
      subst hlen
      simp [afterSync, installed, lengthCalls]
    | true =>
      simp only [hs, if_true] at hlen
      obtain ⟨h1, h2, -, -⟩ := refreshAfterRollover_ok env plan _ _ hlen
      rw [h2, h1]
      simp [afterSync, installed]
  obtain ⟨hfn5, hwr5, htr5⟩ := h5
  have hbody : (rolloverNewFile env plan).run (afterPolicy s1 pol w2) = (.ok (), s6) := by
    unfold rolloverNewFile newFileOutputStream createWriter
    simp only [run_bind, run_ext, run_call, run_pure, afterPolicy, hnew, setFile, setWriter,
      run_modifyApp, runSynchronous_run, List.append_assoc, List.singleton_append,
      List.cons_append, List.nil_append]
    simp only [afterPolicy, opened, List.append_assoc, List.singleton_append,
      List.cons_append, List.nil_append] at hcw
    rw [hcw]
    simp only
    cases hs : syncSucceeds env plan s3.world with
    | false =>
      simp only [hs] at hlen
      subst hlen
      rw [← hhdr]
      simp [afterSync, installed]
    | true =>
      simp only [hs, if_true] at hlen
      simp only [installed] at hlen
      simp only [hs, if_true, run_bind, hlen, hhdr]
  refine ⟨?_, ?_, ?_, cl, hdr, ?_, hcl, hhdrl⟩
  · rw [rollover_run_of_wait env s s1 pol hpol hwait, run_tryCatch,
      rolloverGuarded_run_some env s1 pol plan w2 hplan, if_neg hdiff, run_bind, hbody]
    simp
  · rw [happ6]
    exact hfn5
  · rw [happ6]
    exact hwr5
  · rw [htr6, htr5, htr3, htr1, happ1]
    simp

/-- Witness for C4: the synchronous action reports failure; the new file is active and
`rollover` returns true. -/
theorem rollover_new_file_witness :
    syncSucceeds switchEnv switchPlan () = false ∧
    (rollover switchEnv).run readySys = (.ok true, switchedSys) ∧
    switchedSys.app.fileName = switchPlan.activeFileName :=
  have h := rollover_new_file switchEnv readySys
    (entered readySys)
    ((closeWriter switchEnv).run
      (opened (afterPolicy (entered readySys) (Policy.configured 1) ()) switchPlan 1 ())).2
    (afterSync switchEnv switchPlan "Exception during rollover"
      (installed ((closeWriter switchEnv).run
        (opened (afterPolicy (entered readySys) (Policy.configured 1) ()) switchPlan 1 ())).2
        switchPlan (Writer.mk (OutputStream.counting (OutputStream.raw 1)))))
    switchedSys
    (Policy.configured 1) switchPlan () () 1
    rfl rfl rfl (by decide) rfl rfl rfl rfl
  ⟨rfl, h.1, h.2.1⟩

end NewFile

/-! ### `CountingOutputStream` -/

section Counting

variable {W : Type}

theorem totalSize_cons (buf : ByteBuffer) (rest : List ByteBuffer) :
    totalSize (buf :: rest) = buf.limit + totalSize rest := by
  simp [totalSize]

/-- One successful write through a counting stream around a raw stream: the buffer
reaches the raw stream and its size is added to the estimate. -/
theorem counting_write_ok (env : Env W) (id : StreamId) (buf : ByteBuffer) (s t : Sys W)
    (h : (OutputStream.write env (.counting (.raw id)) buf).run s = (.ok (), t)) :
    (OutputStream.write env (.raw id) buf).run s = (.ok (), { t with app := s.app }) ∧
    t.trace = s.trace ++ [Call.streamWrite id buf.limit] ∧
    t.app = { s.app with fileLength := (s.app.fileLength + buf.limit) % 2 ^ env.sizeBits } := by
  simp only [OutputStream.write, incrementFileLength, run_bind, run_ext, run_modifyApp] at h ⊢
  rcases hw : env.streamWrite id buf s.world with ⟨r, w⟩
  cases r with
  | error e => simp [hw] at h
  | ok u =>
    simp only [hw, Prod.mk.injEq, true_and] at h
    subst h
    simp

/-- Writing to a raw stream neither reads nor changes the appender object. -/
theorem raw_writeAll_app (env : Env W) (id : StreamId) (bufs : List ByteBuffer) (s : Sys W)
    (a : Appender) :
    (OutputStream.writeAll env (.raw id) bufs).run { s with app := a } =
      (((OutputStream.writeAll env (.raw id) bufs).run s).1,
        { ((OutputStream.writeAll env (.raw id) bufs).run s).2 with app := a }) := by
  induction bufs generalizing s with
  | nil => simp [OutputStream.writeAll]
  | cons buf rest ih =>
    simp only [OutputStream.writeAll, OutputStream.write, run_bind, run_ext]
    rcases hw : env.streamWrite id buf s.world with ⟨r, w⟩
    cases r with
    | error e => simp
    | ok u =>
      simp only
      exact ih { s with world := w, trace := s.trace ++ [Call.streamWrite id buf.limit] }

theorem counting_writeAll_ok (env : Env W) (id : StreamId) (bufs : List ByteBuffer)
    (s t : Sys W)
    (hfit : s.app.fileLength < 2 ^ env.sizeBits)
    (h : (OutputStream.writeAll env (.counting (.raw id)) bufs).run s = (.ok (), t)) :
    (OutputStream.writeAll env (.raw id) bufs).run s = (.ok (), { t with app := s.app }) ∧
    t.trace = s.trace ++ bufs.map (fun b => Call.streamWrite id b.limit) ∧
    t.app = { s.app with
      fileLength := (s.app.fileLength + totalSize bufs) % 2 ^ env.sizeBits } := by
  induction bufs generalizing s with
  | nil =>
    simp only [OutputStream.writeAll, run_pure, Prod.mk.injEq, true_and] at h
    subst h
    simp [OutputStream.writeAll, totalSize, Nat.mod_eq_of_lt hfit]
  | cons buf rest ih =>
    rw [OutputStream.writeAll, run_bind] at h
    rcases hw : (OutputStream.write env (.counting (.raw id)) buf).run s with ⟨r, s1⟩
    rw [hw] at h
    cases r with
    | error e => simp at h
    | ok u =>
      simp only at h
      obtain ⟨h1, h2, h3⟩ := counting_write_ok env id buf s s1 hw
      have hfit1 : s1.app.fileLength < 2 ^ env.sizeBits := by
        rw [h3]
        exact Nat.mod_lt _ (Nat.pos_pow_of_pos _ (by decide))
      obtain ⟨k1, k2, k3⟩ := ih s1 hfit1 h
      refine ⟨?_, ?_, ?_⟩
      · rw [OutputStream.writeAll, run_bind, h1]
        simp only
        rw [raw_writeAll_app, k1]
      · rw [k2, h2]
        simp
      · rw [k3, h3]
        simp [totalSize_cons, Nat.add_assoc]

/-- A `close` on any stream arrives as one `close` call at the raw stream underneath, with
the result and the effect on the world of that call. -/
theorem close_run (env : Env W) (os : OutputStream) (u : Sys W) :
    (OutputStream.close env os).run u =
      ((env.streamClose os.rawId u.world).1,
        { u with world := (env.streamClose os.rawId u.world).2,
                 trace := u.trace ++ [Call.streamClose os.rawId] }) := by
  induction os with
  | raw id => simp [OutputStream.close, OutputStream.rawId]
  | counting os ih =>
    unfold OutputStream.close OutputStream.rawId
    exact ih

/-- A `flush` on any stream arrives as one `flush` call at the raw stream underneath, with
the result and the effect on the world of that call. -/
theorem flush_run (env : Env W) (os : OutputStream) (u : Sys W) :
    (OutputStream.flush env os).run u =
      ((env.streamFlush os.rawId u.world).1,
        { u with world := (env.streamFlush os.rawId u.world).2,
                 trace := u.trace ++ [Call.streamFlush os.rawId] }) := by
  induction os with
  | raw id => simp [OutputStream.flush, OutputStream.rawId]
  | counting os ih =>
    unfold OutputStream.flush OutputStream.rawId
    exact ih

/-- C5: a sequence of successful writes through a `CountingOutputStream` around a raw
stream hands every buffer, in order, to the wrapped stream (with the effect on the world
that writing them to the wrapped stream directly has), and adds the sum of the buffer
sizes to the length estimate, in `size_t` arithmetic; nothing else in the appender
changes.  `close` and `flush` on a counting stream are `close` and `flush` on the
wrapped stream, and leave the appender, hence the estimate, unchanged: each is exactly one
call of `close` (of `flush`) on the raw stream underneath the wrapper, recorded in the
trace, whose result (return or exception) and effect on the world are those of the
counting stream's operation. -/
theorem counting_stream_accounts (env : Env W) (id : StreamId) (bufs : List ByteBuffer)
    (s t : Sys W)
    (hfit : s.app.fileLength < 2 ^ env.sizeBits)
    (h : (OutputStream.writeAll env (.counting (.raw id)) bufs).run s = (.ok (), t)) :
    (OutputStream.writeAll env (.raw id) bufs).run s = (.ok (), { t with app := s.app }) ∧
    t.trace = s.trace ++ bufs.map (fun b => Call.streamWrite id b.limit) ∧
    t.app = { s.app with fileLength := (s.app.fileLength + totalSize bufs) % 2 ^ env.sizeBits } ∧
    (∀ (os : OutputStream) (u : Sys W),
      (OutputStream.close env (.counting os)).run u = (OutputStream.close env os).run u ∧
      ((OutputStream.close env (.counting os)).run u).2.app = u.app ∧
      (OutputStream.flush env (.counting os)).run u = (OutputStream.flush env os).run u ∧
      ((OutputStream.flush env (.counting os)).run u).2.app = u.app) ∧
    (∀ (os : OutputStream) (u : Sys W),
      (OutputStream.close env (.counting os)).run u =
        ((env.streamClose os.rawId u.world).1,
          { u with world := (env.streamClose os.rawId u.world).2,
                   trace := u.trace ++ [Call.streamClose os.rawId] }) ∧
      (OutputStream.flush env (.counting os)).run u =
        ((env.streamFlush os.rawId u.world).1,
          { u with world := (env.streamFlush os.rawId u.world).2,
                   trace := u.trace ++ [Call.streamFlush os.rawId] })) ∧
    (∀ u : Sys W,
      ((OutputStream.close env (.counting (.raw id))).run u).2.trace =
        u.trace ++ [Call.streamClose id] ∧
      ((OutputStream.flush env (.counting (.raw id))).run u).2.trace =
        u.trace ++ [Call.streamFlush id]) := by
  obtain ⟨h1, h2, h3⟩ := counting_writeAll_ok env id bufs s t hfit h
  refine ⟨h1, h2, h3, ?_, ?_, ?_⟩
  · intro os u
    exact ⟨rfl, close_app env _ u, rfl, flush_app env _ u⟩
  · intro os u
    exact ⟨close_run env (.counting os) u, flush_run env (.counting os) u⟩
  · intro u
    rw [close_run, flush_run]
    exact ⟨rfl, rfl⟩

/-- Witness for C5: two buffers of ten bytes on a four-bit `size_t` leave the estimate at
`(0 + 20) % 16 = 4`; a `flush` and a `close` on the counting stream are one `flush` and one
`close` call on the wrapped stream 0. -/
theorem counting_stream_accounts_witness :
    readySys.app.fileLength < 2 ^ narrowEnv.sizeBits ∧
    ((OutputStream.writeAll narrowEnv (.counting (.raw 0))
      [ByteBuffer.mk 10, ByteBuffer.mk 10]).run readySys).1 = .ok () ∧
    ((OutputStream.writeAll narrowEnv (.counting (.raw 0))
      [ByteBuffer.mk 10, ByteBuffer.mk 10]).run readySys).2.app =
      { readySys.app with fileLength := 4 } ∧
    ((OutputStream.writeAll narrowEnv (.counting (.raw 0))
      [ByteBuffer.mk 10, ByteBuffer.mk 10]).run readySys).2.trace =
      [Call.streamWrite 0 10, Call.streamWrite 0 10] ∧
    ((OutputStream.flush narrowEnv (.counting (.raw 0))).run readySys).2.trace =
      [Call.streamFlush 0] ∧
    ((OutputStream.close narrowEnv (.counting (.raw 0))).run readySys).2.trace =
      [Call.streamClose 0] :=
  have h := counting_stream_accounts narrowEnv 0 [ByteBuffer.mk 10, ByteBuffer.mk 10] readySys
    ((OutputStream.writeAll narrowEnv (.counting (.raw 0))
      [ByteBuffer.mk 10, ByteBuffer.mk 10]).run readySys).2
    (by decide) rfl
  ⟨by decide, rfl, h.2.2.1, h.2.1, (h.2.2.2.2.2 readySys).2, (h.2.2.2.2.2 readySys).1⟩

end Counting

/-! ### The length estimate along `rollover` -/

section LengthSteps

variable {W : Type}

/-- A completed header hook on a counting writer adds the size of the header to the estimate. -/
theorem writeHeader_ok_length (env : Env W) (s t : Sys W) (id : StreamId)
    (hdr : List ByteBuffer)
    (hw : s.app.writer = some (Writer.mk (.counting (.raw id))))
    (hhdr : ∀ w, (env.layoutHeader w).1 = .ok hdr)
    (hfit : s.app.fileLength < 2 ^ env.sizeBits)
    (h : (writeHeader env).run s = (.ok (), t)) :
    t.app.fileLength = (s.app.fileLength + totalSize hdr) % 2 ^ env.sizeBits := by
  unfold writeHeader at h
  simp only [run_bind, run_call, run_getApp, hw, run_ext, hhdr] at h
  obtain ⟨-, -, h3⟩ := counting_writeAll_ok env id hdr _ t (by simpa using hfit) h
  rw [h3]

/-- A completed reopening adds the size of the header to the estimate. -/
theorem setFileOpen_ok_length (env : Env W) (file : LogString) (append bufferedIo : Bool)
    (bufferSize : Nat) (s t : Sys W) (hdr : List ByteBuffer)
    (hhdr : ∀ w, (env.layoutHeader w).1 = .ok hdr)
    (hfit : s.app.fileLength < 2 ^ env.sizeBits)
    (h : (setFileOpen env file append bufferedIo bufferSize).run s = (.ok (), t)) :
    t.app.fileLength = (s.app.fileLength + totalSize hdr) % 2 ^ env.sizeBits := by
  unfold setFileOpen newFileOutputStream createWriter at h
  simp only [run_bind, run_call, run_ext, run_pure, run_modifyApp] at h
  rcases hopen : env.newFileOutputStream file append s.world with ⟨r, w⟩
  cases r with
  | error e => simp [hopen] at h
  | ok id =>
    simp only [hopen] at h
    have := writeHeader_ok_length env _ t id hdr rfl hhdr (by simpa using hfit) h
    simpa using this

theorem rolloverSameFile_run_success (env : Env W) (plan : RolloverDescription)
    (s2 s3 s5 s6 : Sys W)
    (hcw : (closeWriter env).run s2 = (.ok (), s3))
    (hsucc : syncSucceeds env plan s3.world = true)
    (hrefresh : (refreshAfterRollover env plan).run
      (afterSync env plan "Exception on rollover" s3) = (.ok (), s5))
    (hopen : (setFileOpen env plan.activeFileName plan.append s5.app.bufferedIo
      s5.app.bufferSize).run s5 = (.ok (), s6)) :
    (rolloverSameFile env plan).run s2 = (.ok (), s6) := by
  unfold rolloverSameFile
  rw [run_bind, hcw]
  simp only
  rw [run_bind, runSynchronous_run]
  simp only [hsucc, if_true, run_bind, hrefresh, run_getApp, hopen]

theorem rolloverNewFile_run_success (env : Env W) (plan : RolloverDescription)
    (s2 s3 s5 s6 : Sys W) (id : StreamId) (w3 : W)
    (hnew : env.newFileOutputStream plan.activeFileName plan.append s2.world = (.ok id, w3))
    (hcw : (closeWriter env).run (opened s2 plan id w3) = (.ok (), s3))
    (hsucc : syncSucceeds env plan s3.world = true)
    (hrefresh : (refreshAfterRollover env plan).run
      (afterSync env plan "Exception during rollover"
        (installed s3 plan (Writer.mk (.counting (.raw id))))) = (.ok (), s5))
    (hhdr : (writeHeader env).run s5 = (.ok (), s6)) :
    (rolloverNewFile env plan).run s2 = (.ok (), s6) := by
  unfold rolloverNewFile newFileOutputStream createWriter
  simp only [run_bind, run_ext, run_call, run_pure, hnew, setFile, setWriter,
    run_modifyApp, runSynchronous_run, List.append_assoc, List.singleton_append,
    List.cons_append, List.nil_append]
  simp only [opened, List.append_assoc, List.singleton_append,
    List.cons_append, List.nil_append] at hcw
  rw [hcw]
  simp only [installed] at hrefresh
  simp only [hsucc, if_true, run_bind, hrefresh, hhdr]

end LengthSteps

/-! ### The length estimate after `rollover` -/

section LengthEstimate

variable {W : Type}

/-- C6, as stated, fails: the plan has `append = false` and no synchronous action, and
`rollover` returns true, yet the estimate afterwards is 5, the size of the header that
was written through the counting stream after the reset, and not 0. -/
theorem rollover_length_counterexample :
    headerEnv.policyRollover (Policy.configured 1) "app.log" () = (.ok (some freshPlan), ()) ∧
    freshPlan.append = false ∧ freshPlan.synchronous = none ∧
    ((rollover headerEnv).run grownSys).1 = .ok true ∧
    ((rollover headerEnv).run grownSys).2.app.fileLength = 5 ∧
    ((rollover headerEnv).run grownSys).2.app.fileLength ≠ 0 := by
  decide!

/-- C6, amended: when the synchronous phase succeeds and the steps of the branch taken
complete, the bookkeeping sets the estimate to the on-disk size of the plan's active file
as `File::length` returns it at that moment (`n`) if `plan.append`, and to 0 otherwise;
the header then written through the counting stream (by the reopening in the branch
that keeps the file name, by `writeHeader` in the other) adds its size, so that after
`rollover` the estimate is that value plus the size of the header, in `size_t`
arithmetic. -/
theorem rollover_length_estimate (env : Env W) (s s1 s3 s4 s5 s6 : Sys W) (pol : Policy)
    (plan : RolloverDescription) (w2 : W) (n : Nat) (hdr : List ByteBuffer)
    (hpol : s.app.rollingPolicy = some pol)
    (hwait : (closeLastAsyncAction env).run (entered s) = (.ok (), s1))
    (hplan : env.policyRollover pol s1.app.fileName s1.world = (.ok (some plan), w2))
    (hbranch :
      (plan.activeFileName = s1.app.fileName ∧
        (closeWriter env).run (afterPolicy s1 pol w2) = (.ok (), s3) ∧
        s4 = afterSync env plan "Exception on rollover" s3 ∧
        (setFileOpen env plan.activeFileName plan.append s5.app.bufferedIo
          s5.app.bufferSize).run s5 = (.ok (), s6)) ∨
      (plan.activeFileName ≠ s1.app.fileName ∧ ∃ id w3,
        env.newFileOutputStream plan.activeFileName plan.append w2 = (.ok id, w3) ∧
        (closeWriter env).run (opened (afterPolicy s1 pol w2) plan id w3) = (.ok (), s3) ∧
        s4 = afterSync env plan "Exception during rollover"
          (installed s3 plan (Writer.mk (.counting (.raw id)))) ∧
        (writeHeader env).run s5 = (.ok (), s6)))
    (hsucc : syncSucceeds env plan s3.world = true)
    (hrefresh : (refreshAfterRollover env plan).run s4 = (.ok (), s5))
    (hsize : plan.append = true → (env.fileLength plan.activeFileName s4.world).1 = .ok n)
    (hfit : n < 2 ^ env.sizeBits)
    (hhdr : ∀ w, (env.layoutHeader w).1 = .ok hdr) :
    (rollover env).run s = (.ok true, s6) ∧
    s5.app.fileLength = (if plan.append then n else 0) ∧
    s6.app.fileLength = ((if plan.append then n else 0) + totalSize hdr) % 2 ^ env.sizeBits := by
  obtain ⟨-, happ5, hfalse, htrue⟩ := refreshAfterRollover_ok env plan s4 s5 hrefresh
  have hbase : s5.app.fileLength = (if plan.append then n else 0) := by
    cases happend : plan.append with
    | false => simpa using (hfalse happend).1
    | true =>
      have h1 := htrue happend
      have h2 := hsize happend
      rw [h1] at h2
      simpa using (Except.ok.inj h2)
  have hfit5 : s5.app.fileLength < 2 ^ env.sizeBits := by
    rw [hbase]
    split
    · exact hfit
    · exact Nat.pos_pow_of_pos _ (by decide)
  rcases hbranch with ⟨hsame, hcw, h4, hopen⟩ | ⟨hdiff, id, w3, hnew, hcw, h4, hwh⟩
  · subst h4
    have hbody := rolloverSameFile_run_success env plan _ s3 s5 s6 hcw hsucc hrefresh hopen
    refine ⟨?_, hbase, ?_⟩
    · rw [rollover_run_of_wait env s s1 pol hpol hwait, run_tryCatch,
        rolloverGuarded_run_some env s1 pol plan w2 hplan, if_pos hsame, run_bind, hbody]
      simp
    · rw [setFileOpen_ok_length env _ _ _ _ s5 s6 hdr hhdr hfit5 hopen, hbase]
  · subst h4
    have hbody := rolloverNewFile_run_success env plan (afterPolicy s1 pol w2) s3 s5 s6 id w3
      hnew hcw hsucc hrefresh hwh
    have hw5 : s5.app.writer = some (Writer.mk (.counting (.raw id))) := by
      rw [happ5]
      simp [afterSync, installed]
    refine ⟨?_, hbase, ?_⟩
    · rw [rollover_run_of_wait env s s1 pol hpol hwait, run_tryCatch,
        rolloverGuarded_run_some env s1 pol plan w2 hplan, if_neg hdiff, run_bind, hbody]
      simp
    · rw [writeHeader_ok_length env s5 s6 id hdr hw5 hhdr hfit5 hwh, hbase]

/-- Witness for the amended C6: the file is reopened in append mode with forty bytes on
disk and a header of five bytes is written; the estimate ends at 45. -/
theorem rollover_length_estimate_witness :
    ((rollover appendEnv).run grownSys).1 = .ok true ∧
    ((rollover appendEnv).run grownSys).2.app.fileLength = 45 := by
  have h := rollover_length_estimate appendEnv grownSys
    (entered grownSys)
    ((closeWriter appendEnv).run (afterPolicy (entered grownSys) (Policy.configured 1) ())).2
    (afterSync appendEnv appendPlan "Exception on rollover"
      ((closeWriter appendEnv).run (afterPolicy (entered grownSys) (Policy.configured 1) ())).2)
    ((refreshAfterRollover appendEnv appendPlan).run
      (afterSync appendEnv appendPlan "Exception on rollover"
        ((closeWriter appendEnv).run
          (afterPolicy (entered grownSys) (Policy.configured 1) ())).2)).2
    ((rollover appendEnv).run grownSys).2
    (Policy.configured 1) appendPlan () 40 [ByteBuffer.mk 5]
    (by decide!) (by decide!) (by decide!) (Or.inl (by decide!)) (by decide!) (by decide!)
    (by decide!) (by decide!) (fun _ => rfl)
  exact ⟨congrArg Prod.fst h.1, h.2.2.trans (by decide!)⟩

end LengthEstimate

/-! ### A size trigger and the first rotation -/

section SizeTrigger

variable {W : Type}

/-- When the raw stream accepts every buffer, writing through the counting stream succeeds. -/
theorem counting_writeAll_total (env : Env W) (id : StreamId) (bufs : List ByteBuffer)
    (s : Sys W) (hwr : ∀ buf w, (env.streamWrite id buf w).1 = .ok ()) :
    ((OutputStream.writeAll env (.counting (.raw id)) bufs).run s).1 = .ok () := by
  induction bufs generalizing s with
  | nil => simp [OutputStream.writeAll]
  | cons buf rest ih =>
    simp only [OutputStream.writeAll, OutputStream.write, incrementFileLength, run_bind,
      run_ext, run_modifyApp, hwr]
    exact ih _

/-- An append that starts below the threshold of a size trigger does not enter `rollover`
and adds the size of the event to the estimate. -/
theorem subAppend_below (env : Env W) (s : Sys W) (pol : Policy) (max : Nat) (id : StreamId)
    (bytes : LoggingEvent → List ByteBuffer) (event : LoggingEvent)
    (hpol : s.app.triggeringPolicy = some pol)
    (hsize : ∀ ev file len w,
      env.isTriggeringEvent pol ev file len w = (.ok (decide (max ≤ len)), w))
    (hw : s.app.writer = some (Writer.mk (.counting (.raw id))))
    (hfmt : ∀ ev w, (env.layoutFormat ev w).1 = .ok (bytes ev))
    (hwr : ∀ buf w, (env.streamWrite id buf w).1 = .ok ())
    (hlt : s.app.fileLength < max)
    (hfit : s.app.fileLength + totalSize (bytes event) < 2 ^ env.sizeBits) :
    ((subAppend env event).run s).2.app =
      { s.app with fileLength := s.app.fileLength + totalSize (bytes event) } ∧
    ∃ seg, ((subAppend env event).run s).2.trace = s.trace ++ seg ∧ Call.rollover ∉ seg := by
  have hnot : decide (max ≤ s.app.fileLength) = false := by
    simpa using hlt
  have hrun : (subAppend env event).run s =
      (OutputStream.writeAll env (.counting (.raw id)) (bytes event)).run
        { s with world := (env.layoutFormat event s.world).2,
                 trace := s.trace ++
                  [Call.isTriggeringEvent pol event s.app.fileName s.app.fileLength,
                   Call.baseSubAppend event, Call.layoutFormat event] } := by
    simp [subAppend, hpol, isTriggeringEvent, getFile, getFileLength, hsize, hnot,
      baseSubAppend, hw, hfmt]
  have htot := counting_writeAll_total env id (bytes event)
    { s with world := (env.layoutFormat event s.world).2,
             trace := s.trace ++
              [Call.isTriggeringEvent pol event s.app.fileName s.app.fileLength,
               Call.baseSubAppend event, Call.layoutFormat event] } hwr
  rcases hres : (OutputStream.writeAll env (.counting (.raw id)) (bytes event)).run
    { s with world := (env.layoutFormat event s.world).2,
             trace := s.trace ++
              [Call.isTriggeringEvent pol event s.app.fileName s.app.fileLength,
               Call.baseSubAppend event, Call.layoutFormat event] } with ⟨r, t⟩
  rw [hres] at htot
  simp only at htot
  subst htot
  have hlen0 : s.app.fileLength < 2 ^ env.sizeBits := by omega
  obtain ⟨-, h2, h3⟩ := counting_writeAll_ok env id (bytes event) _ t (by simpa using hlen0) hres
  rw [hrun, hres]
  refine ⟨?_, ?_⟩
  · rw [h3]
    simp [Nat.mod_eq_of_lt hfit]
  · refine ⟨_, by rw [h2, List.append_assoc], ?_⟩
    simp

theorem cumSize_cons (bytes : LoggingEvent → List ByteBuffer) (event : LoggingEvent)
    (rest : List LoggingEvent) :
    cumSize bytes (event :: rest) = totalSize (bytes event) + cumSize bytes rest := by
  simp [cumSize]

/-- A sequence of appends each of which starts below the threshold: `rollover` is not
entered and the estimate grows by the size of the events. -/
theorem runAppends_below (env : Env W) (pol : Policy) (max : Nat) (id : StreamId)
    (bytes : LoggingEvent → List ByteBuffer) (events : List LoggingEvent) (s : Sys W)
    (hpol : s.app.triggeringPolicy = some pol)
    (hsize : ∀ ev file len w,
      env.isTriggeringEvent pol ev file len w = (.ok (decide (max ≤ len)), w))
    (hw : s.app.writer = some (Writer.mk (.counting (.raw id))))
    (hfmt : ∀ ev w, (env.layoutFormat ev w).1 = .ok (bytes ev))
    (hwr : ∀ buf w, (env.streamWrite id buf w).1 = .ok ())
    (hstart : startsBelow max bytes s.app.fileLength events)
    (hfit : s.app.fileLength + cumSize bytes events < 2 ^ env.sizeBits) :
    (runAppends env events s).app =
      { s.app with fileLength := s.app.fileLength + cumSize bytes events } ∧
    ∃ seg, (runAppends env events s).trace = s.trace ++ seg ∧ Call.rollover ∉ seg := by
  induction events generalizing s with
  | nil => exact ⟨by simp [runAppends, cumSize], [], by simp [runAppends], by simp⟩
  | cons event rest ih =>
    rw [cumSize_cons] at hfit
    obtain ⟨hlt, hrest⟩ := hstart
    obtain ⟨happ, seg1, htr1, hno1⟩ := subAppend_below env s pol max id bytes event hpol hsize
      hw hfmt hwr hlt (by omega)
    have hlen1 : ((subAppend env event).run s).2.app.fileLength =
        s.app.fileLength + totalSize (bytes event) := by
      rw [happ]
    obtain ⟨happ2, seg2, htr2, hno2⟩ := ih ((subAppend env event).run s).2
      (by rw [happ]; exact hpol) (by rw [happ]; exact hw) (by rw [hlen1]; exact hrest)
      (by rw [hlen1]; omega)
    refine ⟨?_, seg1 ++ seg2, ?_, ?_⟩
    · rw [runAppends, happ2, hlen1, happ, cumSize_cons]
      simp [Nat.add_assoc]
    · rw [runAppends, htr2, htr1, List.append_assoc]
    · simp [hno1, hno2]

/-- An append that starts at or above the threshold of a size trigger enters `rollover`
once, after the check and before the event is handed to the write path. -/
theorem subAppend_fires (env : Env W) (s : Sys W) (pol : Policy) (max : Nat)
    (event : LoggingEvent)
    (hpol : s.app.triggeringPolicy = some pol)
    (hsize : ∀ ev file len w,
      env.isTriggeringEvent pol ev file len w = (.ok (decide (max ≤ len)), w))
    (hge : max ≤ s.app.fileLength) :
    ∃ mid rest, ((subAppend env event).run s).2.trace =
        s.trace ++ Call.isTriggeringEvent pol event s.app.fileName s.app.fileLength ::
          Call.rollover :: mid ++ Call.baseSubAppend event :: rest ∧
      (∀ c ∈ mid, c.level ≤ 2) ∧ (∀ c ∈ rest, c.level ≤ 0) := by
  have hyes : decide (max ≤ s.app.fileLength) = true := by
    simpa using hge
  obtain ⟨seg, hseg, hlev⟩ := rollover_trace env { s with trace := s.trace ++
    [Call.isTriggeringEvent pol event s.app.fileName s.app.fileLength] }
  rcases hr : (rollover env).run { s with trace := s.trace ++
    [Call.isTriggeringEvent pol event s.app.fileName s.app.fileLength] } with ⟨r, t⟩
  rw [hr] at hseg
  simp only at hseg
  cases r with
  | ok b =>
    obtain ⟨rest, h1, h2⟩ := baseSubAppend_trace env event t
    have hrun : (subAppend env event).run s = (baseSubAppend env event).run t := by
      simp [subAppend, hpol, isTriggeringEvent, getFile, getFileLength, hsize, hyes, hr]
    refine ⟨seg, rest, ?_, hlev, h2⟩
    rw [hrun, h1, hseg]
    simp
  | error e =>
    obtain ⟨rest, h1, h2⟩ := baseSubAppend_trace env event
      { t with trace := t.trace ++ [Call.warn "Exception during rollover attempt."] }
    have hrun : (subAppend env event).run s = (baseSubAppend env event).run
        { t with trace := t.trace ++ [Call.warn "Exception during rollover attempt."] } := by
      simp [subAppend, hpol, isTriggeringEvent, getFile, getFileLength, hsize, hyes, hr, warn]
    refine ⟨seg ++ [Call.warn "Exception during rollover attempt."], rest, ?_, ?_, h2⟩
    · rw [hrun, h1]
      simp [hseg]
    · intro c hc
      rcases List.mem_append.mp hc with hc | hc
      · exact hlev c hc
      · rw [List.mem_singleton.mp hc]
        simp [Call.level]

/-- C7, as stated, fails: with a threshold of ten bytes and an empty file, the first
append writes ten bytes, which makes the estimate reach the threshold, and no rotation
occurs on that write; `rollover` is entered only when a second event is appended. -/
theorem first_rotation_counterexample :
    sizeSys.app.fileLength = 0 ∧
    (runAppends sizeEnv [7] sizeSys).app.fileLength = 10 ∧
    Call.rollover ∉ (runAppends sizeEnv [7] sizeSys).trace ∧
    (runAppends sizeEnv [7, 8] sizeSys).trace =
      (runAppends sizeEnv [7] sizeSys).trace ++
        [Call.isTriggeringEvent (Policy.sizeBased 10) 8 "app.log" 10, Call.rollover,
         Call.policyRollover (Policy.configured 1) "app.log", Call.baseSubAppend 8,
         Call.layoutFormat 8, Call.streamWrite 0 10] := by
  decide!

/-- C7, amended: with a size trigger of `max` bytes, an empty file and a counting writer
whose writes succeed, as long as every append has started with a cumulative size below
`max` no rotation has occurred, also when the last write has brought the cumulative size
to `max` or beyond, and the estimate is the cumulative size; once the cumulative size
has reached `max`, the next append enters `rollover`, once, after the check and before
its own event is written. -/
theorem first_rotation_on_next_append (env : Env W) (s : Sys W) (pol : Policy) (max : Nat)
    (id : StreamId) (bytes : LoggingEvent → List ByteBuffer) (events : List LoggingEvent)
    (next : LoggingEvent)
    (hpol : s.app.triggeringPolicy = some pol)
    (hsize : ∀ ev file len w,
      env.isTriggeringEvent pol ev file len w = (.ok (decide (max ≤ len)), w))
    (hw : s.app.writer = some (Writer.mk (.counting (.raw id))))
    (hfmt : ∀ ev w, (env.layoutFormat ev w).1 = .ok (bytes ev))
    (hwr : ∀ buf w, (env.streamWrite id buf w).1 = .ok ())
    (hempty : s.app.fileLength = 0)
    (hstart : startsBelow max bytes 0 events)
    (hfit : cumSize bytes events < 2 ^ env.sizeBits) :
    (∃ seg, (runAppends env events s).trace = s.trace ++ seg ∧ Call.rollover ∉ seg) ∧
    (runAppends env events s).app.fileLength = cumSize bytes events ∧
    (max ≤ cumSize bytes events →
      ∃ mid rest, ((subAppend env next).run (runAppends env events s)).2.trace =
          (runAppends env events s).trace ++
            Call.isTriggeringEvent pol next s.app.fileName (cumSize bytes events) ::
            Call.rollover :: mid ++ Call.baseSubAppend next :: rest ∧
        (∀ c ∈ mid, c.level ≤ 2) ∧ (∀ c ∈ rest, c.level ≤ 0)) := by
  obtain ⟨happ, hseg⟩ := runAppends_below env pol max id bytes events s hpol hsize hw hfmt hwr
    (by rw [hempty]; exact hstart) (by rw [hempty]; omega)
  have hlen : (runAppends env events s).app.fileLength = cumSize bytes events := by
    rw [happ, hempty]
    simp
  refine ⟨hseg, hlen, ?_⟩
  intro hge
  have h := subAppend_fires env (runAppends env events s) pol max next
    (by rw [happ]; exact hpol) hsize (by rw [hlen]; exact hge)
  rw [hlen] at h
  have hfile : (runAppends env events s).app.fileName = s.app.fileName := by
    rw [happ]
  rw [hfile] at h
  exact h

/-- Witness for the amended C7: threshold ten, one event of ten bytes appended, a second
one next. -/
theorem first_rotation_on_next_append_witness :
    (∃ seg, (runAppends sizeEnv [7] sizeSys).trace = sizeSys.trace ++ seg ∧
      Call.rollover ∉ seg) ∧
    (runAppends sizeEnv [7] sizeSys).app.fileLength =
      cumSize (fun _ => [ByteBuffer.mk 10]) [7] ∧
    (10 ≤ cumSize (fun _ => [ByteBuffer.mk 10]) [7] →
      ∃ mid rest, ((subAppend sizeEnv 8).run (runAppends sizeEnv [7] sizeSys)).2.trace =
          (runAppends sizeEnv [7] sizeSys).trace ++
            Call.isTriggeringEvent (Policy.sizeBased 10) 8 sizeSys.app.fileName
              (cumSize (fun _ => [ByteBuffer.mk 10]) [7]) ::
            Call.rollover :: mid ++ Call.baseSubAppend 8 :: rest ∧
        (∀ c ∈ mid, c.level ≤ 2) ∧ (∀ c ∈ rest, c.level ≤ 0)) :=
  first_rotation_on_next_append sizeEnv sizeSys (Policy.sizeBased 10) 10 0
    (fun _ => [ByteBuffer.mk 10]) [7] 8 rfl
    (fun _ _ len _ => by simp [sizeEnv])
    rfl (fun _ _ => rfl) (fun _ _ => rfl) rfl ⟨by decide, trivial⟩ (by decide)

end SizeTrigger

/-! ### Exceptions thrown by the policies -/

section PolicyErrors

variable {W : Type}

/-- C8, as stated, fails for the triggering policy: when `isTriggeringEvent` throws, the
exception leaves `subAppend` and the event is not handed to the write path. -/
theorem policy_errors_counterexample :
    (subAppend triggerThrowsEnv 7).run readySys =
      (.error (Exn.mk "trigger failed"),
        { readySys with
          trace := [Call.isTriggeringEvent (Policy.configured 0) 7 "app.log" 0] }) ∧
    Call.baseSubAppend 7 ∉ ((subAppend triggerThrowsEnv 7).run readySys).2.trace := by
  decide!

/-- C8, amended: an exception thrown by the rolling policy in `rollover` is caught there:
`rollover` logs a warning and returns false with the appender object unchanged, nothing
of it leaves `subAppend`, and the event is handed to the write path (second part).  An
exception thrown by the triggering policy in `isTriggeringEvent` is not caught: it leaves
`subAppend` before `rollover` and the write path are reached (first part). -/
theorem policy_errors (env : Env W) (s : Sys W) (event : LoggingEvent) (tp : Policy)
    (hpol : s.app.triggeringPolicy = some tp) :
    (∀ ex w1,
      env.isTriggeringEvent tp event s.app.fileName s.app.fileLength s.world
        = (.error ex, w1) →
      (subAppend env event).run s =
        (.error ex, { s with world := w1, trace := s.trace ++
          [Call.isTriggeringEvent tp event s.app.fileName s.app.fileLength] })) ∧
    (∀ rp w1 s2 ex w3,
      env.isTriggeringEvent tp event s.app.fileName s.app.fileLength s.world
        = (.ok true, w1) →
      s.app.rollingPolicy = some rp →
      (closeLastAsyncAction env).run (entered { s with world := w1, trace := s.trace ++
        [Call.isTriggeringEvent tp event s.app.fileName s.app.fileLength] }) = (.ok (), s2) →
      env.policyRollover rp s.app.fileName s2.world = (.error ex, w3) →
      s2.app = s.app ∧
      (rollover env).run { s with world := w1, trace := s.trace ++
        [Call.isTriggeringEvent tp event s.app.fileName s.app.fileLength] } =
        (.ok false, { s2 with world := w3, trace := s2.trace ++
          [Call.policyRollover rp s.app.fileName, Call.warn "Exception during rollover"] }) ∧
      (subAppend env event).run s =
        (baseSubAppend env event).run { s2 with world := w3, trace := s2.trace ++
          [Call.policyRollover rp s.app.fileName, Call.warn "Exception during rollover"] }) := by
  constructor
  · intro ex w1 htrig
    simp [subAppend, hpol, isTriggeringEvent, getFile, getFileLength, htrig]
  · intro rp w1 s2 ex w3 htrig hrp hwait hplan
    have happ : s2.app = s.app := by
      have := closeLastAsyncAction_app env (entered { s with world := w1, trace := s.trace ++
        [Call.isTriggeringEvent tp event s.app.fileName s.app.fileLength] })
      rw [hwait] at this
      simpa [entered] using this
    have hroll : (rollover env).run { s with world := w1, trace := s.trace ++
        [Call.isTriggeringEvent tp event s.app.fileName s.app.fileLength] } =
        (.ok false, { s2 with world := w3, trace := s2.trace ++
          [Call.policyRollover rp s.app.fileName, Call.warn "Exception during rollover"] }) := by
      rw [rollover_run_of_wait env { s with world := w1, trace := s.trace ++
        [Call.isTriggeringEvent tp event s.app.fileName s.app.fileLength] } s2 rp hrp hwait]
      simp [rolloverGuarded, policyRollover, getFile, happ, hplan, warn]
    refine ⟨happ, hroll, ?_⟩
    simp [subAppend, hpol, isTriggeringEvent, getFile, getFileLength, htrig, hroll]

/-- Witness for the amended C8: one appender whose triggering policy throws, one whose
rolling policy throws. -/
theorem policy_errors_witness :
    ((subAppend triggerThrowsEnv 7).run readySys).1 = .error (Exn.mk "trigger failed") ∧
    ((rollover rollingThrowsEnv).run { readySys with
      trace := [Call.isTriggeringEvent (Policy.configured 0) 7 "app.log" 0] }).1 = .ok false ∧
    ((subAppend rollingThrowsEnv 7).run readySys).1 = .ok () :=
  ⟨congrArg Prod.fst
      ((policy_errors triggerThrowsEnv readySys 7 (Policy.configured 0) rfl).1
        (Exn.mk "trigger failed") () rfl),
    congrArg Prod.fst
      ((policy_errors rollingThrowsEnv readySys 7 (Policy.configured 0) rfl).2
        (Policy.configured 1) ()
        (entered { readySys with
          trace := [Call.isTriggeringEvent (Policy.configured 0) 7 "app.log" 0] })
        (Exn.mk "no plan") () rfl rfl rfl rfl).2.1,
    by decide!⟩

end PolicyErrors

/-! ### Failures during `activateOptions` -/

section Activation

variable {W : Type}

/-- The first two parts of `activateOptions` put the policies in place and call nothing. -/
theorem activateOptions_run (env : Env W) (s : Sys W) :
    (activateOptions env).run s =
      (do
        policyActivateOptions env (triggeringPolicyOf env s.app)
        policyActivateOptions env (rollingPolicyOf s.app)
        tryCatch (activateGuarded env (rollingPolicyOf s.app)) fun _ => do
          warn ("Exception will initializing RollingFileAppender named " ++ (← getApp).name)
        ).run (defaulted env s) := by
  obtain ⟨⟨fn, fa, bio, bs, wr, nm, tp, rp, la, fl⟩, world, tr⟩ := s
  cases rp <;> cases tp <;>
    simp [activateOptions, defaultRollingPolicy, defaultTriggeringPolicy, getFile, defaulted,
      rollingPolicyOf, triggeringPolicyOf]

/-- Once `initialize` has returned and the synchronous action of the initial plan, if
there is one, has returned, the guarded part of `activateOptions` is at line 90 in the
state `planned`: what remains is the reading of the length and the base activation. -/
theorem activateGuarded_run (env : Env W) (s : Sys W) (w2 w3 : W)
    (r : Option RolloverDescription)
    (hinit : env.policyInitialize (rollingPolicyOf s.app) s.app.fileName s.app.fileAppend w2
      = (.ok r, w3))
    (hret : startReturns env r w3 = true) :
    (activateGuarded env (rollingPolicyOf s.app)).run (activated env s w2) =
      (do initialLength env; baseActivateOptions env).run (planned env s w2 r w3) := by
  obtain ⟨⟨fn, fa, bio, bs, wr, nm, tp, rp, la, fl⟩, world, tr⟩ := s
  cases r with
  | none =>
    cases fa with
    | false =>
      simp [activateGuarded, initialLength, policyInitialize, getFile, getAppend, activated,
        defaulted, planned, hinit, startFile, startAppend, startAction, startWorld, startCalls]
    | true =>
      rcases hfl : env.fileLength fn w3 with ⟨_ | _, w5⟩ <;>
      simp [activateGuarded, initialLength, policyInitialize, getFile, getAppend, activated,
        defaulted, planned, hinit, startFile, startAppend, startAction, startWorld, startCalls,
        fileLengthOf, hfl]
  | some plan =>
    obtain ⟨pf, pa, ps, pas⟩ := plan
    cases ps with
    | none =>
      cases pa with
      | false =>
        simp [activateGuarded, initialLength, policyInitialize, getFile, getAppend, activated,
          defaulted, planned, hinit, startFile, startAppend, startAction, startWorld,
          startCalls, setFile, setAppend, syncWorld]
      | true =>
        rcases hfl : env.fileLength pf w3 with ⟨_ | _, w5⟩ <;>
        simp [activateGuarded, initialLength, policyInitialize, getFile, getAppend, activated,
          defaulted, planned, hinit, startFile, startAppend, startAction, startWorld,
          startCalls, fileLengthOf, setFile, setAppend, syncWorld, hfl]
    | some a =>
      rcases hex : env.actionExecute a w3 with ⟨b, w4⟩
      cases b with
      | error e => simp [startReturns, hex] at hret
      | ok b =>
        cases pa with
        | false =>
          simp [activateGuarded, initialLength, policyInitialize, getFile, getAppend, activated,
            defaulted, planned, hinit, startFile, startAppend, startAction, startWorld,
            startCalls, setFile, setAppend, syncWorld, actionExecute, hex]
        | true =>
          rcases hfl : env.fileLength pf w4 with ⟨_ | _, w5⟩ <;>
          simp [activateGuarded, initialLength, policyInitialize, getFile, getAppend, activated,
            defaulted, planned, hinit, startFile, startAppend, startAction, startWorld,
            startCalls, fileLengthOf, setFile, setAppend, syncWorld, actionExecute, hex, hfl]

/-- Reading the initial length changes no field of the appender but the length estimate. -/
theorem initialLength_app (env : Env W) (p : Sys W) :
    ∃ len, ((initialLength env).run p).2.app = { p.app with fileLength := len } := by
  obtain ⟨⟨fn, fa, bio, bs, wr, nm, tp, rp, la, fl⟩, world, tr⟩ := p
  cases fa with
  | false => exact ⟨0, by simp [initialLength, getAppend]⟩
  | true =>
    rcases hfl : env.fileLength fn world with ⟨_ | len, w5⟩
    · exact ⟨fl, by simp [initialLength, getAppend, getFile, fileLengthOf, hfl]⟩
    · exact ⟨len, by simp [initialLength, getAppend, getFile, fileLengthOf, hfl]⟩

/-- A length read that throws leaves the appender as it is. -/
theorem initialLength_error (env : Env W) (p : Sys W) (ex : Exn) (w5 : W)
    (happ : p.app.fileAppend = true)
    (h : env.fileLength p.app.fileName p.world = (.error ex, w5)) :
    (initialLength env).run p =
      (.error ex, { p with world := w5, trace := p.trace ++ [Call.fileLength p.app.fileName] }) := by
  simp [initialLength, getAppend, getFile, fileLengthOf, happ, h]

/-- The base activation, whatever its outcome, leaves the file name, the append flag, the
outstanding asynchronous action and the name of the appender as they are. -/
theorem baseActivateOptions_frame (env : Env W) (p : Sys W) :
    ((baseActivateOptions env).run p).2.app.fileName = p.app.fileName ∧
    ((baseActivateOptions env).run p).2.app.fileAppend = p.app.fileAppend ∧
    ((baseActivateOptions env).run p).2.app.lastRolloverAsyncAction =
      p.app.lastRolloverAsyncAction ∧
    ((baseActivateOptions env).run p).2.app.name = p.app.name := by
  obtain ⟨⟨fn, fa, bio, bs, wr, nm, tp, rp, la, fl⟩, world, tr⟩ := p
  unfold baseActivateOptions setFileOpen newFileOutputStream createWriter
  simp only [run_bind, run_call, run_getApp, run_ext, run_pure, run_modifyApp]
  rcases hop : env.newFileOutputStream fn fa world with ⟨_ | id, w1⟩
  · simp
  · simp only
    obtain ⟨len, hlen⟩ := writeHeader_app env
      { app := { fileName := fn, fileAppend := fa, bufferedIo := bio, bufferSize := bs,
                 writer := some (Writer.mk (OutputStream.counting (OutputStream.raw id))),
                 name := nm, triggeringPolicy := tp, rollingPolicy := rp,
                 lastRolloverAsyncAction := la, fileLength := fl },
        world := w1,
        trace := tr ++ [Call.baseActivateOptions] ++ [Call.setFileOpen fn fa bio bs] ++
          [Call.newFileOutputStream fn fa] ++ [Call.createWriter (OutputStream.raw id)] }
    rw [hlen]
    simp

/-- C9, as stated, fails.  When the activation of a policy throws, the exception leaves
`activateOptions`.  When the base appender cannot open the file after an initial plan has
been applied, nothing is thrown, but the file name, the append flag and the outstanding
asynchronous action are those of the plan and not those from before the call. -/
theorem activateOptions_counterexample :
    ((activateOptions activationThrowsEnv).run freshSys).1 = .error (Exn.mk "bad option") ∧
    ((activateOptions openFailsEnv).run freshSys).1 = .ok () ∧
    Call.warn "Exception will initializing RollingFileAppender named R" ∈
      ((activateOptions openFailsEnv).run freshSys).2.trace ∧
    freshSys.app.fileName = "app.log" ∧
    ((activateOptions openFailsEnv).run freshSys).2.app.fileName = "other.log" ∧
    freshSys.app.fileAppend = true ∧
    ((activateOptions openFailsEnv).run freshSys).2.app.fileAppend = false ∧
    freshSys.app.lastRolloverAsyncAction = none ∧
    ((activateOptions openFailsEnv).run freshSys).2.app.lastRolloverAsyncAction = some 3 := by
  decide!

/-- C9, amended: an exception thrown by the activation of the triggering policy or of
the rolling policy leaves `activateOptions` (first two parts).  Once both policies are
activated, nothing is thrown by `activateOptions`, whichever later step fails (third
part).  When the failing step is `initialize`, or the synchronous action of the initial
plan, a warning is logged and the file name, the append flag, the length estimate and the
outstanding asynchronous action are what they were before the call.  When `initialize`
has returned and the synchronous action of the initial plan, if there is one, has
returned, the file name, the append flag and the outstanding asynchronous action after
the call are those of the initial plan (those from before the call if there is no plan),
whatever happens later; when then the reading of the length throws, a warning is logged,
nothing else is called and the length estimate is the one from before the call; when the
base activation throws, a warning is logged and the state is the one the throw left, with
nothing undone. -/
theorem activateOptions_failures (env : Env W) (s : Sys W) :
    (∀ ex w1,
      env.policyActivateOptions (triggeringPolicyOf env s.app) s.world = (.error ex, w1) →
      ((activateOptions env).run s).1 = .error ex) ∧
    (∀ w1 ex w2,
      env.policyActivateOptions (triggeringPolicyOf env s.app) s.world = (.ok (), w1) →
      env.policyActivateOptions (rollingPolicyOf s.app) w1 = (.error ex, w2) →
      ((activateOptions env).run s).1 = .error ex) ∧
    (∀ w1 w2,
      env.policyActivateOptions (triggeringPolicyOf env s.app) s.world = (.ok (), w1) →
      env.policyActivateOptions (rollingPolicyOf s.app) w1 = (.ok (), w2) →
      ((activateOptions env).run s).1 = .ok () ∧
      ((∃ ex w3, env.policyInitialize (rollingPolicyOf s.app) s.app.fileName s.app.fileAppend w2
            = (.error ex, w3)) ∨
        (∃ plan a w3 ex w4,
          env.policyInitialize (rollingPolicyOf s.app) s.app.fileName s.app.fileAppend w2
            = (.ok (some plan), w3) ∧
          plan.synchronous = some a ∧ env.actionExecute a w3 = (.error ex, w4)) →
        ((activateOptions env).run s).2.app.fileName = s.app.fileName ∧
        ((activateOptions env).run s).2.app.fileAppend = s.app.fileAppend ∧
        ((activateOptions env).run s).2.app.fileLength = s.app.fileLength ∧
        ((activateOptions env).run s).2.app.lastRolloverAsyncAction =
          s.app.lastRolloverAsyncAction ∧
        Call.warn ("Exception will initializing RollingFileAppender named " ++ s.app.name) ∈
          ((activateOptions env).run s).2.trace) ∧
      (∀ r w3,
        env.policyInitialize (rollingPolicyOf s.app) s.app.fileName s.app.fileAppend w2
          = (.ok r, w3) →
        startReturns env r w3 = true →
        (((activateOptions env).run s).2.app.fileName = startFile s.app r ∧
          ((activateOptions env).run s).2.app.fileAppend = startAppend s.app r ∧
          ((activateOptions env).run s).2.app.lastRolloverAsyncAction = startAction s.app r) ∧
        (∀ ex w5,
          startAppend s.app r = true →
          env.fileLength (startFile s.app r) (startWorld env r w3) = (.error ex, w5) →
          (activateOptions env).run s =
            (.ok (), { planned env s w2 r w3 with
              world := w5
              trace := (planned env s w2 r w3).trace ++
                [Call.fileLength (startFile s.app r),
                 Call.warn ("Exception will initializing RollingFileAppender named " ++
                   s.app.name)] }) ∧
          ((activateOptions env).run s).2.app.fileLength = s.app.fileLength) ∧
        (∀ s5 ex t,
          (initialLength env).run (planned env s w2 r w3) = (.ok (), s5) →
          (baseActivateOptions env).run s5 = (.error ex, t) →
          (activateOptions env).run s =
            (.ok (), { t with trace := t.trace ++
              [Call.warn ("Exception will initializing RollingFileAppender named " ++
                s.app.name)] })))) := by
  refine ⟨?_, ?_, ?_⟩
  · intro ex w1 h1
    rw [activateOptions_run]
    simp [policyActivateOptions, defaulted, h1]
  · intro w1 ex w2 h1 h2
    rw [activateOptions_run]
    simp [policyActivateOptions, defaulted, h1, h2]
  · intro w1 w2 h1 h2
    have hrun : (activateOptions env).run s =
        (tryCatch (activateGuarded env (rollingPolicyOf s.app)) fun _ => do
          warn ("Exception will initializing RollingFileAppender named " ++ (← getApp).name)
          ).run (activated env s w2) := by
      rw [activateOptions_run]
      simp [policyActivateOptions, defaulted, activated, h1, h2]
    refine ⟨?_, ?_, ?_⟩
    · rw [hrun, run_tryCatch]
      rcases hg : (activateGuarded env (rollingPolicyOf s.app)).run (activated env s w2)
        with ⟨r, t⟩
      cases r <;> simp [warn]
    · rintro (⟨ex, w3, hinit⟩ | ⟨plan, a, w3, ex, w4, hinit, hsync, hexec⟩)
      · rw [hrun]
        simp [activateGuarded, policyInitialize, getFile, getAppend, activated, defaulted,
          hinit, warn]
      · rw [hrun]
        simp [activateGuarded, policyInitialize, getFile, getAppend, activated, defaulted,
          hinit, hsync, actionExecute, hexec, warn]
    · intro r w3 hinit hret
      have hg := activateGuarded_run env s w2 w3 r hinit hret
      rw [run_bind] at hg
      have hpl : (planned env s w2 r w3).app.name = s.app.name := rfl
      refine ⟨?_, ?_, ?_⟩
      · rw [hrun, run_tryCatch, hg]
        obtain ⟨len, hlen⟩ := initialLength_app env (planned env s w2 r w3)
        rcases hil : (initialLength env).run (planned env s w2 r w3) with ⟨r1, s5⟩
        rw [hil] at hlen
        simp only at hlen
        cases r1 with
        | error e => simp [warn, hlen, planned]
        | ok u =>
          obtain ⟨f1, f2, f3, -⟩ := baseActivateOptions_frame env s5
          rcases hb : (baseActivateOptions env).run s5 with ⟨r2, t⟩
          rw [hb] at f1 f2 f3
          simp only at f1 f2 f3
          cases r2 <;> simp [warn, hb, f1, f2, f3, hlen, planned]
      · intro ex w5 happ hfl
        have hil := initialLength_error env (planned env s w2 r w3) ex w5 happ hfl
        rw [hrun, run_tryCatch, hg, hil]
        simp [warn, planned, defaulted]
      · intro s5 ex t hil hb
        obtain ⟨len, hlen⟩ := initialLength_app env (planned env s w2 r w3)
        rw [hil] at hlen
        obtain ⟨-, -, -, f4⟩ := baseActivateOptions_frame env s5
        rw [hb] at f4
        simp only at hlen f4
        rw [hrun, run_tryCatch, hg, hil]
        simp [warn, hb, f4, hlen, planned, defaulted]

/-- Witness for the amended C9, on an appender that has never been activated: `initialize`
throws; the length of the file of the initial plan `resumePlan` cannot be read; the base
activation cannot open the file of the initial plan `startPlan`. -/
theorem activateOptions_failures_witness :
    (((activateOptions initializeThrowsEnv).run freshSys).1 = .ok () ∧
      ((activateOptions initializeThrowsEnv).run freshSys).2.app.fileName =
        freshSys.app.fileName ∧
      ((activateOptions initializeThrowsEnv).run freshSys).2.app.fileAppend =
        freshSys.app.fileAppend ∧
      ((activateOptions initializeThrowsEnv).run freshSys).2.app.fileLength =
        freshSys.app.fileLength ∧
      ((activateOptions initializeThrowsEnv).run freshSys).2.app.lastRolloverAsyncAction =
        freshSys.app.lastRolloverAsyncAction ∧
      Call.warn ("Exception will initializing RollingFileAppender named " ++ freshSys.app.name) ∈
        ((activateOptions initializeThrowsEnv).run freshSys).2.trace) ∧
    (lengthThrowsEnv.fileLength "other.log" () = (.error (Exn.mk "no such file"), ()) ∧
      ((activateOptions lengthThrowsEnv).run freshSys).1 = .ok () ∧
      ((activateOptions lengthThrowsEnv).run freshSys).2.app.fileName = "other.log" ∧
      ((activateOptions lengthThrowsEnv).run freshSys).2.app.fileAppend = true ∧
      ((activateOptions lengthThrowsEnv).run freshSys).2.app.lastRolloverAsyncAction = some 3 ∧
      ((activateOptions lengthThrowsEnv).run freshSys).2.app.fileLength =
        freshSys.app.fileLength ∧
      ((activateOptions lengthThrowsEnv).run freshSys).2.trace =
        (planned lengthThrowsEnv freshSys () (some resumePlan) ()).trace ++
          [Call.fileLength "other.log",
           Call.warn ("Exception will initializing RollingFileAppender named " ++
             freshSys.app.name)]) ∧
    (((baseActivateOptions openFailsEnv).run
        ((initialLength openFailsEnv).run
          (planned openFailsEnv freshSys () (some startPlan) ())).2).1 =
        .error (Exn.mk "cannot open") ∧
      ((activateOptions openFailsEnv).run freshSys).2.app.fileName = "other.log" ∧
      ((activateOptions openFailsEnv).run freshSys).2.trace =
        ((baseActivateOptions openFailsEnv).run
          ((initialLength openFailsEnv).run
            (planned openFailsEnv freshSys () (some startPlan) ())).2).2.trace ++
          [Call.warn ("Exception will initializing RollingFileAppender named " ++
            freshSys.app.name)]) :=
  have h := (activateOptions_failures initializeThrowsEnv freshSys).2.2 () () rfl rfl
  have hl := ((activateOptions_failures lengthThrowsEnv freshSys).2.2 () () rfl rfl).2.2
    (some resumePlan) () rfl rfl
  have hle := hl.2.1 (Exn.mk "no such file") () rfl rfl
  have hb := ((activateOptions_failures openFailsEnv freshSys).2.2 () () rfl rfl).2.2
    (some startPlan) () rfl rfl
  have hbe := hb.2.2
    ((initialLength openFailsEnv).run (planned openFailsEnv freshSys () (some startPlan) ())).2
    (Exn.mk "cannot open")
    ((baseActivateOptions openFailsEnv).run
      ((initialLength openFailsEnv).run
        (planned openFailsEnv freshSys () (some startPlan) ())).2).2
    rfl rfl
  ⟨⟨h.1, h.2.1 (Or.inl ⟨Exn.mk "bad pattern", (), rfl⟩)⟩,
    ⟨rfl, ((activateOptions_failures lengthThrowsEnv freshSys).2.2 () () rfl rfl).1,
      hl.1.1, hl.1.2.1, hl.1.2.2, hle.2, congrArg (fun x => x.2.trace) hle.1⟩,
    ⟨rfl, hb.1.1, congrArg (fun x => x.2.trace) hbe⟩⟩

end Activation

/-! ### The outstanding asynchronous action -/

section Outstanding

variable {W : Type}

/-- The guarded part of `rollover` starts by consulting the rolling policy. -/
theorem rolloverGuarded_trace (env : Env W) (pol : Policy) (s : Sys W) :
    ∃ rest, ((tryCatch (rolloverGuarded env pol) fun _ => do
        warn "Exception during rollover"
        pure false).run s).2.trace =
      s.trace ++ Call.policyRollover pol s.app.fileName :: rest := by
  rcases hp : env.policyRollover pol s.app.fileName s.world with ⟨r, w⟩
  cases r with
  | error e =>
    exact ⟨[Call.warn "Exception during rollover"], by
      simp [rolloverGuarded, policyRollover, getFile, hp, warn]⟩
  | ok plan =>
    cases plan with
    | none =>
      exact ⟨[], by simp [rolloverGuarded, policyRollover, getFile, hp]⟩
    | some plan =>
      have hemit : Emits (fun c => c.level ≤ 2)
          ((if plan.activeFileName = s.app.fileName then rolloverSameFile env plan
            else rolloverNewFile env plan) >>= fun _ => (pure true : M W Bool)) := by
        refine emits_bind ?_ (fun _ => emits_pure _ _)
        split
        · exact emits_rolloverSameFile env plan
        · exact emits_rolloverNewFile env plan
      obtain ⟨seg, hseg, -⟩ := hemit (afterPolicy s pol w)
      rw [run_tryCatch, rolloverGuarded_run_some env s pol plan w hp]
      rcases hres : ((if plan.activeFileName = s.app.fileName then rolloverSameFile env plan
            else rolloverNewFile env plan) >>= fun _ => (pure true : M W Bool)).run
          (afterPolicy s pol w) with ⟨r, t⟩
      rw [hres] at hseg
      simp only [afterPolicy] at hseg
      cases r with
      | ok b => exact ⟨seg, by simp [hseg]⟩
      | error e => exact ⟨seg ++ [Call.warn "Exception during rollover"], by simp [hseg, warn]⟩

/-- C10, as stated, fails for `activateOptions`: after a rollover has left action 9
outstanding, `activateOptions` puts the asynchronous action of the initial plan in the
slot, and `close()` has never been called on action 9. -/
theorem outstanding_action_counterexample :
    (runOps compressEnv [Op.rollover] readySys).app.lastRolloverAsyncAction = some 9 ∧
    (runOps compressEnv [Op.rollover, Op.activateOptions] readySys).app.lastRolloverAsyncAction
      = some 3 ∧
    Call.actionClose 9 ∉ (runOps compressEnv [Op.rollover, Op.activateOptions] readySys).trace := by
  decide!

/-- C10, amended: in the state reached by any sequence of calls, with an action `a`
outstanding: `rollover`, when there is a rolling policy, first calls `close()` on `a`
and consults the rolling policy only after that call has returned, and without a rolling
policy it leaves the slot alone, so that `rollover` never replaces an action on which
`close()` has not been called; `close` calls `close()` on `a` first and closes the file
handle of the base appender only after that call has returned. -/
theorem outstanding_action_closed (env : Env W) (ops : List Op) (s0 : Sys W) (a : ActionPtr)
    (hout : (runOps env ops s0).app.lastRolloverAsyncAction = some a) :
    (∀ pol, (runOps env ops s0).app.rollingPolicy = some pol →
      ∃ rest, ((rollover env).run (runOps env ops s0)).2.trace =
          (runOps env ops s0).trace ++ Call.rollover :: Call.actionClose a :: rest ∧
        (rest = [] ∨
          ∃ rest2, rest = Call.policyRollover pol (runOps env ops s0).app.fileName :: rest2)) ∧
    ((runOps env ops s0).app.rollingPolicy = none →
      ((rollover env).run (runOps env ops s0)).2.app = (runOps env ops s0).app) ∧
    (((rollover env).run (runOps env ops s0)).2.app.lastRolloverAsyncAction ≠ some a →
      ∃ rest, ((rollover env).run (runOps env ops s0)).2.trace =
          (runOps env ops s0).trace ++ Call.rollover :: Call.actionClose a :: rest) ∧
    (∃ rest, ((close env).run (runOps env ops s0)).2.trace =
        (runOps env ops s0).trace ++ Call.actionClose a :: rest ∧
      (rest = [] ∨ ∃ rest2, rest = Call.baseClose :: rest2)) := by
  generalize runOps env ops s0 = s at hout
  have hroll : ∀ pol, s.app.rollingPolicy = some pol →
      ∃ rest, ((rollover env).run s).2.trace =
          s.trace ++ Call.rollover :: Call.actionClose a :: rest ∧
        (rest = [] ∨ ∃ rest2, rest = Call.policyRollover pol s.app.fileName :: rest2) := by
    intro pol hpol
    rcases hc : env.actionClose a s.world with ⟨r, w⟩
    cases r with
    | error e =>
      exact ⟨[], by simp [rollover, hpol, closeLastAsyncAction, hout, actionClose, hc], Or.inl rfl⟩
    | ok u =>
      have hwait : (closeLastAsyncAction env).run (entered s) =
          (.ok (), { s with world := w,
                            trace := s.trace ++ [Call.rollover, Call.actionClose a] }) := by
        simp [closeLastAsyncAction, entered, hout, actionClose, hc]
      obtain ⟨rest2, h2⟩ := rolloverGuarded_trace env pol
        { s with world := w, trace := s.trace ++ [Call.rollover, Call.actionClose a] }
      refine ⟨_, ?_, Or.inr ⟨rest2, rfl⟩⟩
      rw [rollover_run_of_wait env s _ pol hpol hwait, h2]
      simp
  have hnone : s.app.rollingPolicy = none → ((rollover env).run s).2.app = s.app := by
    intro hpol
    simp [rollover, hpol]
  refine ⟨hroll, hnone, ?_, ?_⟩
  · intro hne
    cases hpol : s.app.rollingPolicy with
    | none =>
      rw [hnone hpol] at hne
      exact absurd hout hne
    | some pol =>
      obtain ⟨rest, h1, -⟩ := hroll pol hpol
      exact ⟨rest, h1⟩
  · rcases hc : env.actionClose a s.world with ⟨r, w⟩
    cases r with
    | error e =>
      exact ⟨[], by simp [close, closeLastAsyncAction, hout, actionClose, hc], Or.inl rfl⟩
    | ok u =>
      obtain ⟨cl, h1, -⟩ := closeWriter_trace env
        { s with world := w, trace := s.trace ++ [Call.actionClose a, Call.baseClose] }
      refine ⟨Call.baseClose :: Call.closeWriter :: cl, ?_, Or.inr ⟨_, rfl⟩⟩
      simp only [close, closeLastAsyncAction, baseClose, run_bind, run_getApp, hout,
        actionClose, run_ext, hc, run_call]
      simp only [List.append_assoc, List.singleton_append, List.cons_append,
        List.nil_append] at h1 ⊢
      rw [h1]

/-- Witness for the amended C10: after one rollover has left action 9 outstanding, the
next rollover and `close` begin by closing it. -/
theorem outstanding_action_closed_witness :
    (runOps compressEnv [Op.rollover] readySys).app.lastRolloverAsyncAction = some 9 ∧
    (∃ rest, ((rollover compressEnv).run (runOps compressEnv [Op.rollover] readySys)).2.trace =
        (runOps compressEnv [Op.rollover] readySys).trace ++
          Call.rollover :: Call.actionClose 9 :: rest ∧
      (rest = [] ∨ ∃ rest2, rest = Call.policyRollover (Policy.configured 1)
        (runOps compressEnv [Op.rollover] readySys).app.fileName :: rest2)) ∧
    (∃ rest, ((close compressEnv).run (runOps compressEnv [Op.rollover] readySys)).2.trace =
        (runOps compressEnv [Op.rollover] readySys).trace ++ Call.actionClose 9 :: rest ∧
      (rest = [] ∨ ∃ rest2, rest = Call.baseClose :: rest2)) :=
  have hout : (runOps compressEnv [Op.rollover] readySys).app.lastRolloverAsyncAction
      = some 9 := by decide!
  have h := outstanding_action_closed compressEnv [Op.rollover] readySys 9 hout
  ⟨hout, h.1 (Policy.configured 1) (by decide!), h.2.2.2⟩

end Outstanding

/-! ### The asynchronous action of a plan -/

section Dispatch

variable {W : Type}

theorem level_le_one_not_execute {c : Call} (h : c.level ≤ 1) (a : ActionPtr) :
    c ≠ Call.actionExecute a := by
  intro hc
  rw [hc] at h
  simp [Call.level] at h

/-- Closing the writer executes no action. -/
theorem emits_closeWriter_quiet (env : Env W) (P : ActionPtr → Prop) :
    Emits (fun c => ∀ a, c = Call.actionExecute a → P a) (closeWriter env) := by
  intro s
  obtain ⟨cl, h1, h2⟩ := closeWriter_trace env s
  refine ⟨Call.closeWriter :: cl, h1, ?_⟩
  intro c hc a hca
  rcases List.mem_cons.mp hc with rfl | hc
  · exact absurd hca (by simp)
  · exact absurd hca (level_le_one_not_execute (Nat.le_trans (h2 c hc) (by decide)) a)

/-- Reopening the file executes no action. -/
theorem emits_setFileOpen_quiet (env : Env W) (P : ActionPtr → Prop) (file : LogString)
    (append bufferedIo : Bool) (bufferSize : Nat) :
    Emits (fun c => ∀ a, c = Call.actionExecute a → P a)
      (setFileOpen env file append bufferedIo bufferSize) := by
  intro s
  obtain ⟨post, h1, h2⟩ := setFileOpen_trace env file append bufferedIo bufferSize s
  refine ⟨_ :: post, h1, ?_⟩
  intro c hc a hca
  rcases List.mem_cons.mp hc with rfl | hc
  · exact absurd hca (by simp)
  · exact absurd hca (level_le_one_not_execute (h2 c hc) a)

/-- Writing the header executes no action. -/
theorem emits_writeHeader_quiet (env : Env W) (P : ActionPtr → Prop) :
    Emits (fun c => ∀ a, c = Call.actionExecute a → P a) (writeHeader env) :=
  (emits_writeHeader env).mono fun _ hc a hca => absurd hca (level_le_one_not_execute hc a)

/-- The synchronous phase executes the synchronous action of the plan and no other. -/
theorem emits_runSynchronous_own (env : Env W) (plan : RolloverDescription) (warning : String) :
    Emits (fun c => ∀ a, c = Call.actionExecute a → plan.synchronous = some a)
      (runSynchronous env plan warning) := by
  unfold runSynchronous actionExecute warn
  cases hsync : plan.synchronous with
  | none => exact emits_pure _ _
  | some b =>
    refine emits_tryCatch (emits_ext ?_ _) (fun _ => emits_bind (emits_call ?_)
      (fun _ => emits_pure _ _))
    · intro a ha
      rw [Call.actionExecute.inj ha]
    · intro a ha
      exact absurd ha (by simp)

/-- The bookkeeping after the synchronous phase stores the asynchronous action and
executes nothing. -/
theorem emits_refreshAfterRollover_quiet (env : Env W) (P : ActionPtr → Prop)
    (plan : RolloverDescription) :
    Emits (fun c => ∀ a, c = Call.actionExecute a → P a) (refreshAfterRollover env plan) := by
  unfold refreshAfterRollover fileLengthOf
  repeat (first
    | exact emits_pure _ _
    | exact emits_modifyApp _ _
    | exact emits_ext (fun a ha => absurd ha (by simp)) _
    | refine emits_bind ?_ (fun _ => ?_)
    | split)

/-- Carrying out a plan executes its synchronous action and no other. -/
theorem emits_plan_own (env : Env W) (plan : RolloverDescription) (file : LogString) :
    Emits (fun c => ∀ a, c = Call.actionExecute a → plan.synchronous = some a)
      ((if plan.activeFileName = file then rolloverSameFile env plan
        else rolloverNewFile env plan) >>= fun _ => (pure true : M W Bool)) := by
  refine emits_bind ?_ (fun _ => emits_pure _ _)
  split
  · unfold rolloverSameFile
    repeat (first
      | exact emits_getApp _
      | exact emits_closeWriter_quiet env _
      | exact emits_runSynchronous_own env _ _
      | exact emits_refreshAfterRollover_quiet env _ _
      | exact emits_setFileOpen_quiet env _ _ _ _ _
      | refine emits_bind ?_ (fun _ => ?_)
      | split)
  · unfold rolloverNewFile newFileOutputStream createWriter setFile setWriter
    repeat (first
      | exact emits_pure _ _
      | exact emits_modifyApp _ _
      | exact emits_call (fun a ha => absurd ha (by simp))
      | exact emits_ext (fun a ha => absurd ha (by simp)) _
      | exact emits_closeWriter_quiet env _
      | exact emits_runSynchronous_own env _ _
      | exact emits_refreshAfterRollover_quiet env _ _
      | exact emits_writeHeader_quiet env _
      | refine emits_bind ?_ (fun _ => ?_)
      | split)

/-- In every state and with every policy, the only actions `rollover` executes are
synchronous actions of the plan the rolling policy returned: the asynchronous action of
a plan is not started. -/
theorem rollover_executes_synchronous_only (env : Env W) (s : Sys W) :
    ∃ seg, ((rollover env).run s).2.trace = s.trace ++ seg ∧
      ∀ a, Call.actionExecute a ∈ seg →
        ∃ pol plan w, s.app.rollingPolicy = some pol ∧
          (env.policyRollover pol s.app.fileName w).1 = .ok (some plan) ∧
          plan.synchronous = some a := by
  cases hpol : s.app.rollingPolicy with
  | none => exact ⟨[Call.rollover], by simp [rollover, hpol], by simp⟩
  | some pol =>
    have happ := closeLastAsyncAction_app env (entered s)
    have htr := closeLastAsyncAction_trace env (entered s)
    rcases hw : (closeLastAsyncAction env).run (entered s) with ⟨r, s1⟩
    rw [hw] at happ htr
    simp only [entered] at happ htr
    have hwait : ∀ c ∈ waitCalls s.app, ∀ a, c ≠ Call.actionExecute a := by
      intro c hc a
      unfold waitCalls at hc
      split at hc
      · simp at hc
      · rw [List.mem_singleton.mp hc]
        simp
    cases r with
    | error e =>
      refine ⟨Call.rollover :: waitCalls s.app, ?_, ?_⟩
      · have hrun : (rollover env).run s = (.error e, s1) := by
          have h1 : (rollover env).run s = ((closeLastAsyncAction env >>= fun _ =>
              tryCatch (rolloverGuarded env pol) fun _ => do
                warn "Exception during rollover"
                pure false).run (entered s)) := by
            simp [rollover, hpol, entered]
          rw [h1, run_bind, hw]
        rw [hrun]
        simpa using htr
      · intro a ha
        rcases List.mem_cons.mp ha with h | h
        · exact absurd h (by simp)
        · exact absurd rfl (hwait _ h a)
    | ok u =>
      have hrun := rollover_run_of_wait env s s1 pol hpol hw
      rcases hp : env.policyRollover pol s1.app.fileName s1.world with ⟨r, w⟩
      have hfile : s1.app.fileName = s.app.fileName := by rw [happ]
      have hp2 := hp
      rw [hfile] at hp2
      cases r with
      | error e =>
        refine ⟨Call.rollover :: waitCalls s.app ++
          [Call.policyRollover pol s.app.fileName, Call.warn "Exception during rollover"], ?_, ?_⟩
        · rw [hrun]
          simp [rolloverGuarded, policyRollover, getFile, hp2, warn, htr, hfile]
        · intro a ha
          simp only [List.cons_append, List.mem_cons, List.mem_append, List.mem_singleton,
            List.not_mem_nil, or_false] at ha
          rcases ha with h | h | h | h
          · exact absurd h (by simp)
          · exact absurd rfl (hwait _ h a)
          · exact absurd h (by simp)
          · exact absurd h (by simp)
      | ok plan =>
        cases plan with
        | none =>
          refine ⟨Call.rollover :: waitCalls s.app ++
            [Call.policyRollover pol s.app.fileName], ?_, ?_⟩
          · rw [hrun]
            simp [rolloverGuarded, policyRollover, getFile, hp2, htr, hfile]
          · intro a ha
            simp only [List.cons_append, List.mem_cons, List.mem_append, List.mem_singleton,
              List.not_mem_nil, or_false] at ha
            rcases ha with h | h | h
            · exact absurd h (by simp)
            · exact absurd rfl (hwait _ h a)
            · exact absurd h (by simp)
        | some plan =>
          obtain ⟨seg, hseg, hown⟩ := emits_plan_own env plan s1.app.fileName
            (afterPolicy s1 pol w)
          rw [run_tryCatch, rolloverGuarded_run_some env s1 pol plan w hp] at hrun
          rcases hres : ((if plan.activeFileName = s1.app.fileName then rolloverSameFile env plan
                else rolloverNewFile env plan) >>= fun _ => (pure true : M W Bool)).run
              (afterPolicy s1 pol w) with ⟨r, t⟩
          rw [hres] at hseg hrun
          simp only [afterPolicy] at hseg
          have hfound : ∀ a, plan.synchronous = some a →
              ∃ pol2 plan w, some pol = some pol2 ∧
                (env.policyRollover pol2 s.app.fileName w).1 = .ok (some plan) ∧
                plan.synchronous = some a := by
            intro a ha
            exact ⟨pol, plan, s1.world, rfl, by rw [hp2], ha⟩
          cases r with
          | ok b =>
            refine ⟨Call.rollover :: waitCalls s.app ++
              Call.policyRollover pol s.app.fileName :: seg, ?_, ?_⟩
            · rw [hrun]
              simp [hseg, htr, hfile]
            · intro a ha
              simp only [List.cons_append, List.mem_cons, List.mem_append] at ha
              rcases ha with h | h | h | h
              · exact absurd h (by simp)
              · exact absurd rfl (hwait _ h a)
              · exact absurd h (by simp)
              · exact hfound a (hown _ h a rfl)
          | error e =>
            refine ⟨Call.rollover :: waitCalls s.app ++
              Call.policyRollover pol s.app.fileName ::
                (seg ++ [Call.warn "Exception during rollover"]), ?_, ?_⟩
            · rw [hrun]
              simp [hseg, htr, hfile, warn]
            · intro a ha
              simp only [List.cons_append, List.mem_cons, List.mem_append,
                List.mem_singleton, List.not_mem_nil, or_false] at ha
              rcases ha with h | h | h | h | h
              · exact absurd h (by simp)
              · exact absurd rfl (hwait _ h a)
              · exact absurd h (by simp)
              · exact hfound a (hown _ h a rfl)
              · exact absurd h (by simp)

/-- C11 at a failing input: the plan carries the asynchronous action 9 and has no
synchronous action; `rollover` returns true and action 9 is stored as the outstanding
action, but nothing has started it: the calls made are exactly those listed, none of
which is on action 9, and a following `close` calls `close()` on an action that was
never executed. -/
theorem async_action_not_dispatched :
    compressPlan.asynchronous = some 9 ∧
    syncSucceeds compressEnv compressPlan () = true ∧
    ((rollover compressEnv).run readySys).1 = .ok true ∧
    ((rollover compressEnv).run readySys).2.app.lastRolloverAsyncAction = some 9 ∧
    ((rollover compressEnv).run readySys).2.trace =
      [Call.rollover, Call.policyRollover (Policy.configured 1) "app.log", Call.closeWriter,
        Call.streamClose 0, Call.setFileOpen "app.log" false false 8192,
        Call.newFileOutputStream "app.log" false, Call.createWriter (OutputStream.raw 1),
        Call.writeHeader, Call.layoutHeader] ∧
    Call.actionExecute 9 ∉ ((rollover compressEnv).run readySys).2.trace ∧
    Call.actionClose 9 ∈ (runOps compressEnv [Op.rollover, Op.close] readySys).trace ∧
    Call.actionExecute 9 ∉ (runOps compressEnv [Op.rollover, Op.close] readySys).trace := by
  decide!

end Dispatch

/-! ### The legacy appender -/

section Legacy

variable {W α β : Type}

/-- An `int` argument in range is passed as it is. -/
theorem intArg_of_range (x : Int) (hlo : -2 ^ 31 ≤ x) (hhi : x < 2 ^ 31) : intArg x = x := by
  unfold intArg
  omega

/-- The setters with an `int` parameter store the argument as an `int`: a size of
3000000000 arrives as -1294967296, a size in range as it is. -/
theorem setMaximumFileSize_int :
    (Obsolete.setMaximumFileSize Obsolete.newRollingFileAppender 3000000000).maxFileSize =
      -1294967296 ∧
    (Obsolete.setMaximumFileSize Obsolete.newRollingFileAppender 5000).maxFileSize = 5000 ∧
    (Obsolete.setMaxBackupIndex Obsolete.newRollingFileAppender 4294967297).maxBackupIndex = 1 := by
  decide

theorem keeps_pure (a : α) : KeepsPolicies (pure a : M W α) := fun _ => rfl

theorem keeps_getApp : KeepsPolicies (getApp : M W Appender) := fun _ => rfl

theorem keeps_call (c : Call) : KeepsPolicies (call c : M W Unit) := fun _ => rfl

theorem keeps_ext (c : Call) (f : W → Except Exn α × W) : KeepsPolicies (ext c f) :=
  fun _ => rfl

theorem keeps_modifyApp {f : Appender → Appender}
    (h : ∀ a, policiesOf (f a) = policiesOf a) : KeepsPolicies (modifyApp f : M W Unit) :=
  fun s => h s.app

theorem keeps_bind {m : M W α} {f : α → M W β} (hm : KeepsPolicies m)
    (hf : ∀ a, KeepsPolicies (f a)) : KeepsPolicies (m >>= f) := by
  intro s
  have h1 := hm s
  rw [run_bind]
  rcases hrun : m.run s with ⟨r, s1⟩
  rw [hrun] at h1
  cases r with
  | error e => exact h1
  | ok a => exact (hf a s1).trans h1

theorem keeps_tryCatch {m : M W α} {h : Exn → M W α} (hm : KeepsPolicies m)
    (hh : ∀ e, KeepsPolicies (h e)) : KeepsPolicies (tryCatch m h) := by
  intro s
  have h1 := hm s
  rw [run_tryCatch]
  rcases hrun : m.run s with ⟨r, s1⟩
  rw [hrun] at h1
  cases r with
  | ok a => exact h1
  | error e => exact (hh e s1).trans h1

theorem keeps_writeAll (env : Env W) (os : OutputStream) (bufs : List ByteBuffer) :
    KeepsPolicies (OutputStream.writeAll env os bufs) := by
  intro s
  obtain ⟨len, h⟩ := writeAll_app env os bufs s
  rw [h]
  rfl

theorem keeps_writeHeader (env : Env W) : KeepsPolicies (writeHeader env) := by
  intro s
  obtain ⟨len, h⟩ := writeHeader_app env s
  rw [h]
  rfl

theorem keeps_setFileOpen (env : Env W) (file : LogString) (append bufferedIo : Bool)
    (bufferSize : Nat) : KeepsPolicies (setFileOpen env file append bufferedIo bufferSize) := by
  unfold setFileOpen newFileOutputStream createWriter
  repeat (first
    | exact keeps_pure _
    | exact keeps_call _
    | exact keeps_ext _ _
    | exact keeps_modifyApp (fun _ => rfl)
    | exact keeps_writeHeader env
    | refine keeps_bind ?_ (fun _ => ?_))

theorem keeps_setFile (file : LogString) : KeepsPolicies (setFile file : M W Unit) :=
  keeps_bind (keeps_call _) (fun _ => keeps_modifyApp (fun _ => rfl))

theorem keeps_setAppend (append : Bool) : KeepsPolicies (setAppend append : M W Unit) :=
  keeps_bind (keeps_call _) (fun _ => keeps_modifyApp (fun _ => rfl))

theorem keeps_baseActivateOptions (env : Env W) : KeepsPolicies (baseActivateOptions env) :=
  keeps_bind (keeps_call _) (fun _ => keeps_bind keeps_getApp
    (fun _ => keeps_setFileOpen env _ _ _ _))

/-- The guarded part of `activateOptions` never touches the policy pointers. -/
theorem keeps_activateGuarded (env : Env W) (pol : Policy) :
    KeepsPolicies (activateGuarded env pol) := by
  unfold activateGuarded
  refine keeps_bind (keeps_bind keeps_getApp (fun _ => keeps_pure _)) (fun _ => ?_)
  refine keeps_bind (keeps_bind keeps_getApp (fun _ => keeps_pure _)) (fun _ => ?_)
  refine keeps_bind (keeps_ext _ _) (fun r => ?_)
  dsimp only
  have hlen : KeepsPolicies (do
      let __do_lift ← getFile
      let len ← fileLengthOf env __do_lift
      modifyApp fun a => { a with fileLength := len }
      baseActivateOptions env : M W Unit) :=
    keeps_bind (keeps_bind keeps_getApp (fun _ => keeps_pure _)) (fun _ =>
      keeps_bind (keeps_ext _ _) (fun _ =>
        keeps_bind (keeps_modifyApp (fun _ => rfl)) (fun _ => keeps_baseActivateOptions env)))
  have hzero : KeepsPolicies (do
      modifyApp fun a => { a with fileLength := 0 }
      baseActivateOptions env : M W Unit) :=
    keeps_bind (keeps_modifyApp (fun _ => rfl)) (fun _ => keeps_baseActivateOptions env)
  have htail : KeepsPolicies (do
      let __do_lift ← getAppend
      if __do_lift = true then do
        let __do_lift ← getFile
        let len ← fileLengthOf env __do_lift
        modifyApp fun a => { a with fileLength := len }
        baseActivateOptions env
      else do
        modifyApp fun a => { a with fileLength := 0 }
        baseActivateOptions env : M W Unit) := by
    refine keeps_bind (keeps_bind keeps_getApp (fun _ => keeps_pure _)) (fun b => ?_)
    split
    · exact hlen
    · exact hzero
  have hplan : ∀ plan : RolloverDescription, KeepsPolicies (do
      setFile plan.activeFileName
      setAppend plan.append
      modifyApp fun a => { a with lastRolloverAsyncAction := plan.asynchronous }
      let __do_lift ← getAppend
      if __do_lift = true then do
        let __do_lift ← getFile
        let len ← fileLengthOf env __do_lift
        modifyApp fun a => { a with fileLength := len }
        baseActivateOptions env
      else do
        modifyApp fun a => { a with fileLength := 0 }
        baseActivateOptions env : M W Unit) :=
    fun plan => keeps_bind (keeps_setFile _) (fun _ => keeps_bind (keeps_setAppend _)
      (fun _ => keeps_bind (keeps_modifyApp (fun _ => rfl)) (fun _ => htail)))
  split
  · exact keeps_bind (keeps_pure _) (fun _ => htail)
  · split
    · exact keeps_bind (keeps_pure _) (fun _ => hplan _)
    · exact keeps_bind (keeps_ext _ _) (fun _ => keeps_bind (keeps_pure _) (fun _ => hplan _))

/-- An appender with both policies configured still has them after `activateOptions`. -/
theorem activateOptions_keeps_configured (env : Env W) (s : Sys W) (tp rp : Policy)
    (htp : s.app.triggeringPolicy = some tp) (hrp : s.app.rollingPolicy = some rp) :
    policiesOf ((activateOptions env).run s).2.app = (some tp, some rp) := by
  have hkeep : KeepsPolicies (do
      policyActivateOptions env (triggeringPolicyOf env s.app)
      policyActivateOptions env (rollingPolicyOf s.app)
      tryCatch (activateGuarded env (rollingPolicyOf s.app)) fun _ => do
        warn ("Exception will initializing RollingFileAppender named " ++ (← getApp).name)
      : M W Unit) := by
    unfold policyActivateOptions warn
    repeat (first
      | exact keeps_pure _
      | exact keeps_getApp
      | exact keeps_call _
      | exact keeps_ext _ _
      | exact keeps_activateGuarded env _
      | refine keeps_bind ?_ (fun _ => ?_)
      | refine keeps_tryCatch ?_ (fun _ => ?_))
  rw [activateOptions_run, hkeep]
  simp [policiesOf, defaulted, rollingPolicyOf, triggeringPolicyOf, htp, hrp]

/-- The comparison of `stringHelpers` accepts a name only if it is the given one but for
the case. -/
theorem equalsIgnoreCaseChars_sound (name upper lower : List Char)
    (hcase : upper.map Char.toLower = lower.map Char.toLower)
    (h : equalsIgnoreCaseChars name upper lower = true) :
    name.map Char.toLower = lower.map Char.toLower := by
  induction name generalizing upper lower with
  | nil =>
    cases upper <;> cases lower <;> simp_all [equalsIgnoreCaseChars]
  | cons c rest ih =>
    cases upper with
    | nil => simp [equalsIgnoreCaseChars] at h
    | cons u us =>
      cases lower with
      | nil => simp [equalsIgnoreCaseChars] at h
      | cons l ls =>
        simp only [equalsIgnoreCaseChars, Bool.and_eq_true, Bool.or_eq_true, beq_iff_eq] at h
        simp only [List.map_cons, List.cons.injEq] at hcase ⊢
        refine ⟨?_, ih us ls hcase.2 h.2⟩
        rcases h.1 with hc | hc
        · rw [hc, hcase.1]
        · rw [hc]

theorem stringHelpers_sound : stringHelpers.Sound := by
  intro name upper lower hcase h
  exact equalsIgnoreCaseChars_sound name.data upper.data lower.data hcase h

/-- C12: the legacy appender is a translation.  Its constructor sets `maxFileSize` to
`10*1024*1024` and `maxBackupIndex` to 1.  When the two policies it creates are
activated without an exception, its `activateOptions` is the `activateOptions` of the
wrapped appender, run on the wrapped appender with a size threshold trigger of maximum
`maxFileSize` and a fixed window policy with `minIndex` 1, `maxIndex` `maxBackupIndex`
and pattern `<file>.%i` installed, and both are still installed afterwards.  For an
option name that is none of `MaxFileSize`, `MaximumFileSize`, `MaxBackupIndex`,
`MaximumBackupIndex` whatever the case of its letters, `setOption` is the `setOption` of
the wrapped appender on the same name and value, and `maxFileSize` and `maxBackupIndex`
are unchanged. -/
theorem legacy_appender_translates (env : Env W) (h : Obsolete.Helpers W)
    (self : Obsolete.RollingFileAppender) (s : Sys W) (hsound : h.Sound) :
    (Obsolete.newRollingFileAppender.maxFileSize = 10485760 ∧
      Obsolete.newRollingFileAppender.maxBackupIndex = 1) ∧
    (∀ w1 w2,
      env.policyActivateOptions (Policy.sizeBased self.maxFileSize) s.world = (.ok (), w1) →
      env.policyActivateOptions
        (Policy.fixedWindow (some 1) (some self.maxBackupIndex) (s.app.fileName ++ ".%i")) w1
        = (.ok (), w2) →
      (Obsolete.activateOptions env self).run s =
        (activateOptions env).run (Obsolete.wired self s w2) ∧
      (Obsolete.wired self s w2).app.triggeringPolicy =
        some (Policy.sizeBased self.maxFileSize) ∧
      (Obsolete.wired self s w2).app.rollingPolicy =
        some (Policy.fixedWindow (some 1) (some self.maxBackupIndex)
          (s.app.fileName ++ ".%i")) ∧
      ((Obsolete.activateOptions env self).run s).2.app.triggeringPolicy =
        some (Policy.sizeBased self.maxFileSize) ∧
      ((Obsolete.activateOptions env self).run s).2.app.rollingPolicy =
        some (Policy.fixedWindow (some 1) (some self.maxBackupIndex)
          (s.app.fileName ++ ".%i"))) ∧
    (∀ option value,
      ¬ sameIgnoringCase option "MaxFileSize" →
      ¬ sameIgnoringCase option "MaximumFileSize" →
      ¬ sameIgnoringCase option "MaxBackupIndex" →
      ¬ sameIgnoringCase option "MaximumBackupIndex" →
      ((Obsolete.setOption h self option value).run s).2 =
        ((h.rfaSetOption option value).run s).2 ∧
      ((Obsolete.setOption h self option value).run s).1 =
        ((h.rfaSetOption option value).run s).1.map (fun _ => self)) := by
  refine ⟨⟨by decide, rfl⟩, ?_, ?_⟩
  · intro w1 w2 h1 h2
    have hrun : (Obsolete.activateOptions env self).run s =
        (activateOptions env).run (Obsolete.wired self s w2) := by
      simp only [Obsolete.activateOptions, policyActivateOptions, setTriggeringPolicy,
        setRollingPolicy, getFile, run_bind, run_ext, run_modifyApp, run_getApp, run_pure,
        h1, h2, Obsolete.wired, Obsolete.triggerOf, Obsolete.rollingOf, List.append_assoc,
        List.singleton_append]
    have hkeep := activateOptions_keeps_configured env (Obsolete.wired self s w2)
      (Obsolete.triggerOf self) (Obsolete.rollingOf self s.app.fileName) rfl rfl
    rw [← hrun] at hkeep
    simp only [policiesOf, Prod.mk.injEq] at hkeep
    exact ⟨hrun, rfl, rfl, hkeep.1, hkeep.2⟩
  · intro option value n1 n2 n3 n4
    have hno : ∀ upper lower shown : LogString, lowerCase upper = lowerCase lower →
        lowerCase lower = lowerCase shown → ¬ sameIgnoringCase option shown →
        h.equalsIgnoreCase option upper lower = false := by
      intro upper lower shown hul hls hn
      cases hb : h.equalsIgnoreCase option upper lower with
      | false => rfl
      | true => exact absurd ((hsound option upper lower hul hb).trans hls) hn
    have e1 := hno "MAXFILESIZE" "maxfilesize" "MaxFileSize" (by decide) (by decide) n1
    have e2 := hno "MAXIMUMFILESIZE" "maximumfilesize" "MaximumFileSize" (by decide)
      (by decide) n2
    have e3 := hno "MAXBACKUPINDEX" "maxbackupindex" "MaxBackupIndex" (by decide) (by decide) n3
    have e4 := hno "MAXIMUMBACKUPINDEX" "maximumbackupindex" "MaximumBackupIndex" (by decide)
      (by decide) n4
    simp only [Obsolete.setOption, e1, e2, e3, e4, Bool.or_self, Bool.false_eq_true,
      if_false, run_bind]
    rcases hr : (h.rfaSetOption option value).run s with ⟨r, t⟩
    cases r <;> simp [Except.map]

/-- Witness for C12: the default legacy appender on a fresh wrapped appender; the option
`File` is forwarded. -/
theorem legacy_appender_translates_witness :
    stringHelpers.Sound ∧
    ((Obsolete.activateOptions quietEnv Obsolete.newRollingFileAppender).run freshSys).2.app.triggeringPolicy
      = some (Policy.sizeBased 10485760) ∧
    ((Obsolete.activateOptions quietEnv Obsolete.newRollingFileAppender).run freshSys).2.app.rollingPolicy
      = some (Policy.fixedWindow (some 1) (some 1) "app.log.%i") ∧
    ((Obsolete.setOption stringHelpers Obsolete.newRollingFileAppender "File" "x.log").run
      freshSys).2 = ((setFile "x.log" : M Unit Unit).run freshSys).2 ∧
    ((Obsolete.setOption stringHelpers Obsolete.newRollingFileAppender "File" "x.log").run
      freshSys).1 = .ok Obsolete.newRollingFileAppender :=
  have h := legacy_appender_translates quietEnv stringHelpers Obsolete.newRollingFileAppender
    freshSys stringHelpers_sound
  have ha := h.2.1 () () rfl rfl
  have ho := h.2.2 "File" "x.log" (by decide) (by decide) (by decide) (by decide)
  ⟨stringHelpers_sound, ha.2.2.2.1, ha.2.2.2.2, ho.1, ho.2⟩

end Legacy

end Log4cxx
